import Mathlib

/-!
Verification development for the thumbnail-generation proof-of-concept.

The definitions below are a shallow embedding of the repository's
TypeScript sources:

* `lib/modelRegistry.ts` (file `src/unnamed/part_001`): provider/model
  catalog, validation, normalization, wire-model resolution.
* `lib/costing.ts` (file `src/unnamed/part_000`): pricing tables and the
  text/image cost calculators.
* `app/api/generate/route.ts`: the `safeParseJson` helper, the
  `chooseVisionEngine` selection and the `POST` pipeline.

Modelling conventions:

* TypeScript string-union types (`Provider`, `ApiVendor`, `TextModelId`,
  model kinds, …) are compile-time only; at runtime every such value is a
  JavaScript string and the code compares them with `===`.  They are
  therefore embedded as `String`.
* JavaScript numbers are embedded as `ℚ` (exact rational arithmetic);
  `Math.round` is embedded as Mathlib's `round`, which agrees with the
  JavaScript semantics `round x = ⌊x + 1/2⌋` (ties toward +∞).
* `JSON.parse` / `JSON.stringify` are runtime builtins, not repository
  code; they are modelled by an executable JSON parser/serializer over an
  explicit `Json` value type (see the `Json` section for the documented
  restrictions of that model).
* Network calls, the database and the clock are modelled by explicit
  oracle inputs and returned records (see the route-model section).
-/

/-
The arithmetic primitives of `Rat` are marked irreducible in the library,
which blocks `decide`-style evaluation of concrete cost computations; the
proofs below only need them to unfold (soundness is unaffected — the
kernel re-checks everything).
-/
set_option allowUnsafeReducibility true in
attribute [semireducible] Rat.add Rat.mul Rat.sub Rat.div Rat.inv Rat.ofScientific

/-! ## Model registry (`lib/modelRegistry.ts`) -/

/-- Runtime model of a parsed `engineConfig` JSON object: each of the four
fields is either present (`some`) or absent (`none`).  A field that is
present with a non-string JSON value behaves, everywhere this object is
consumed, exactly like an unknown string (every consumer only compares the
field against known catalog strings), so `String` payloads lose no
generality.  A non-object JSON value spread into `{ ...defaultConfig }`
contributes no fields and is represented by the all-`none` record. -/
structure PartialConfig where
  textProvider : Option String
  textModel : Option String
  imageProvider : Option String
  imageModel : Option String
deriving DecidableEq, Repr

/-- `EngineConfig` of `modelRegistry.ts` (runtime view: plain strings). -/
structure EngineConfig where
  textProvider : String
  textModel : String
  imageProvider : String
  imageModel : String
deriving DecidableEq, Repr

/-- `ModelOption` of `modelRegistry.ts`. -/
structure ModelOption where
  id : String
  label : String
  provider : String
  kind : String
  enabled : Bool
  apiModel : Option String
  capInputImage : Option Bool
  capOutputImage : Option Bool
deriving DecidableEq, Repr

/-- `defaultConfig` of `modelRegistry.ts`. -/
def defaultConfig : EngineConfig :=
  { textProvider := "openai", textModel := "gpt-4.1-mini",
    imageProvider := "openai", imageModel := "gpt-image-1-mini" }

/-- `TEXT_MODELS` of `modelRegistry.ts`. -/
def TEXT_MODELS : List ModelOption :=
  [ { id := "gpt-5.2", label := "ChatGPT 5.2", provider := "openai", kind := "text",
      enabled := true, apiModel := none, capInputImage := some true, capOutputImage := none },
    { id := "gpt-5.1", label := "ChatGPT 5.1", provider := "openai", kind := "text",
      enabled := true, apiModel := none, capInputImage := some true, capOutputImage := none },
    { id := "gpt-4.1-mini", label := "ChatGPT 4.1 mini", provider := "openai", kind := "text",
      enabled := true, apiModel := none, capInputImage := some true, capOutputImage := none },
    { id := "gemini-2.5-pro", label := "Gemini 2.5 Pro", provider := "gemini", kind := "text",
      enabled := true, apiModel := none, capInputImage := some true, capOutputImage := none },
    { id := "gemini-2.5-flash", label := "Gemini 2.5 Flash", provider := "gemini", kind := "text",
      enabled := true, apiModel := none, capInputImage := some true, capOutputImage := none },
    { id := "claude-sonnet", label := "Claude Sonnet", provider := "anthropic", kind := "text",
      enabled := true, apiModel := some "claude-3-5-sonnet-latest",
      capInputImage := some false, capOutputImage := none },
    { id := "claude-haiku", label := "Claude Haiku", provider := "anthropic", kind := "text",
      enabled := true, apiModel := some "claude-3-5-haiku-latest",
      capInputImage := some false, capOutputImage := none } ]

/-- `IMAGE_MODELS` of `modelRegistry.ts`. -/
def IMAGE_MODELS : List ModelOption :=
  [ { id := "gpt-image-1-mini", label := "OpenAI gpt-image-1-mini", provider := "openai",
      kind := "image", enabled := true, apiModel := none,
      capInputImage := some true, capOutputImage := some true },
    { id := "gpt-image-1", label := "OpenAI gpt-image-1", provider := "openai",
      kind := "image", enabled := true, apiModel := none,
      capInputImage := some true, capOutputImage := some true },
    { id := "gemini-2.5-flash-image", label := "Gemini 2.5 Flash Image (Nano Banana)",
      provider := "gemini", kind := "image", enabled := true, apiModel := none,
      capInputImage := some true, capOutputImage := some true } ]

/-- `getApiVendor` of `modelRegistry.ts`: `gemini ↦ google`, identity otherwise. -/
def getApiVendor (provider : String) : String :=
  if provider = "gemini" then "google" else provider

/-- `isValidTextModel` of `modelRegistry.ts`. -/
def isValidTextModel (provider model : String) : Bool :=
  TEXT_MODELS.any fun m => m.provider == provider && m.id == model && m.enabled

/-- `isValidImageModel` of `modelRegistry.ts`. -/
def isValidImageModel (provider model : String) : Bool :=
  IMAGE_MODELS.any fun m => m.provider == provider && m.id == model && m.enabled

/-- `resolveApiModel` of `modelRegistry.ts`.  `found?.apiModel || id`
falls back to `id` both when no enabled entry matches, when the entry has
no `apiModel`, and when the `apiModel` is the (falsy) empty string. -/
def resolveApiModel (provider kind id : String) : String :=
  let list := if kind = "text" then TEXT_MODELS else IMAGE_MODELS
  match list.find? (fun m => m.enabled && m.provider == provider && m.kind == kind && m.id == id) with
  | some m =>
    match m.apiModel with
    | some s => if s = "" then id else s
    | none => id
  | none => id

/-- The spread `{ ...defaultConfig, ...(input || {}) }` of
`normalizeEngineConfig`: an absent field keeps the default. -/
def mergeConfig (input : Option PartialConfig) : EngineConfig :=
  match input with
  | none => defaultConfig
  | some p =>
    { textProvider := p.textProvider.getD defaultConfig.textProvider,
      textModel := p.textModel.getD defaultConfig.textModel,
      imageProvider := p.imageProvider.getD defaultConfig.imageProvider,
      imageModel := p.imageModel.getD defaultConfig.imageModel }

/-- First mutation block of `normalizeEngineConfig`: reset the text pair to
the default when it is not a known enabled catalog entry. -/
def fixText (c : EngineConfig) : EngineConfig :=
  if isValidTextModel c.textProvider c.textModel then c
  else { c with textProvider := defaultConfig.textProvider,
                textModel := defaultConfig.textModel }

/-- Second mutation block of `normalizeEngineConfig`: if `imageProvider`
is `"anthropic"`, reset both image fields to the default. -/
def fixImageAnthropic (c : EngineConfig) : EngineConfig :=
  if c.imageProvider = "anthropic" then
    { c with imageProvider := defaultConfig.imageProvider,
             imageModel := defaultConfig.imageModel }
  else c

/-- Third mutation block of `normalizeEngineConfig`: reset the image pair
to the default when it is not a known enabled catalog entry. -/
def fixImagePair (c : EngineConfig) : EngineConfig :=
  if isValidImageModel c.imageProvider c.imageModel then c
  else { c with imageProvider := defaultConfig.imageProvider,
                imageModel := defaultConfig.imageModel }

/-- `normalizeEngineConfig` of `modelRegistry.ts`: merge onto the default,
then apply the three sequential repair blocks in source order. -/
def normalizeEngineConfig (input : Option PartialConfig) : EngineConfig :=
  fixImagePair (fixImageAnthropic (fixText (mergeConfig input)))

/-- View a full `EngineConfig` as the partial object it denotes when fed
back into `normalizeEngineConfig` (every field present). -/
def toPartial (c : EngineConfig) : PartialConfig :=
  { textProvider := some c.textProvider, textModel := some c.textModel,
    imageProvider := some c.imageProvider, imageModel := some c.imageModel }

/-! ## Costing (`lib/costing.ts`) -/

/-- `TokenUsage` of `lib/costing.ts`. -/
structure TokenUsage where
  input : ℚ
  output : ℚ
  total : ℚ
deriving DecidableEq, Repr

/-- One entry of `TEXT_RATES`: USD per 1M input/output tokens. -/
structure TextRate where
  inputPerM : ℚ
  outputPerM : ℚ
deriving DecidableEq, Repr

/-- One entry of `IMAGE_PER_IMAGE`. -/
structure ImageRate where
  low : Option ℚ
  medium : Option ℚ
  high : Option ℚ
  fixedPerImage : Option ℚ
deriving DecidableEq, Repr

/-- `PER_M` of `lib/costing.ts`. -/
def PER_M : ℚ := 1000000

/-- `usd` of `lib/costing.ts`: `Math.round(n * 1e6) / 1e6`. -/
def usd (n : ℚ) : ℚ := (round (n * 1000000) : ℚ) / 1000000

/-- `TEXT_RATES` of `lib/costing.ts`, as a vendor-indexed association list. -/
def TEXT_RATES : List (String × List (String × TextRate)) :=
  [ ("openai",
      [ ("gpt-5.2", { inputPerM := 3.5, outputPerM := 28.0 }),
        ("gpt-5.1", { inputPerM := 2.5, outputPerM := 20.0 }),
        ("gpt-4.1-mini", { inputPerM := 0.7, outputPerM := 2.8 }) ]),
    ("google",
      [ ("gemini-2.5-pro", { inputPerM := 1.25, outputPerM := 10.0 }),
        ("gemini-2.5-flash", { inputPerM := 0.30, outputPerM := 2.50 }) ]),
    ("anthropic",
      [ ("claude-3-5-sonnet-latest", { inputPerM := 3.0, outputPerM := 15.0 }),
        ("claude-3-5-haiku-latest", { inputPerM := 0.8, outputPerM := 4.0 }) ]) ]

/-- `IMAGE_PER_IMAGE` of `lib/costing.ts`. -/
def IMAGE_PER_IMAGE : List (String × List (String × ImageRate)) :=
  [ ("openai",
      [ ("gpt-image-1-mini",
          { low := some 0.005, medium := some 0.011, high := some 0.036, fixedPerImage := none }),
        ("gpt-image-1",
          { low := some 0.011, medium := some 0.042, high := some 0.167, fixedPerImage := none }) ]),
    ("google",
      [ ("gemini-2.5-flash-image",
          { low := none, medium := none, high := none, fixedPerImage := some 0.039 }) ]),
    ("anthropic", []) ]

/-- `TEXT_RATES[vendor]?.[apiModel]` lookup. -/
def textRate (vendor apiModel : String) : Option TextRate :=
  (TEXT_RATES.lookup vendor).bind fun table => table.lookup apiModel

/-- `calcTextCostUsd` of `lib/costing.ts`. -/
def calcTextCostUsd (vendor apiModel : String) (usage : TokenUsage) : ℚ :=
  match textRate vendor apiModel with
  | none => 0
  | some rate =>
    usd (usage.input / PER_M * rate.inputPerM + usage.output / PER_M * rate.outputPerM)

/-- Dynamic quality-key access `table?.[quality]` on an `ImageRate`. -/
def qualityField (t : ImageRate) (quality : String) : Option ℚ :=
  if quality = "low" then t.low
  else if quality = "medium" then t.medium
  else if quality = "high" then t.high
  else none

/-- `calcImageCostUsd` of `lib/costing.ts` (the route always passes
`imageCount = 1` and `quality = "low"`; the parameters are kept). -/
def calcImageCostUsd (vendor apiModel : String) (imageCount : ℚ) (quality : String)
    (usage : Option TokenUsage) : ℚ :=
  if vendor = "openai" then
    let table := (IMAGE_PER_IMAGE.lookup "openai").bind fun t => t.lookup apiModel
    let per : ℚ :=
      match table with
      | none => 0
      | some t => ((qualityField t quality).orElse fun _ => t.low).getD 0
    usd (per * imageCount)
  else if vendor = "google" then
    let table := (IMAGE_PER_IMAGE.lookup "google").bind fun t => t.lookup apiModel
    let perOut : ℚ := (table.bind fun t => t.fixedPerImage).getD 0
    let inputRate : ℚ :=
      (((TEXT_RATES.lookup "google").bind fun t => t.lookup "gemini-2.5-flash").map
        fun r => r.inputPerM).getD 0.30
    let inTok : ℚ := (usage.map fun u => u.input).getD 0
    usd (inTok / PER_M * inputRate + perOut * imageCount)
  else 0

example : normalizeEngineConfig none = defaultConfig := by decide
example : isValidTextModel "anthropic" "claude-sonnet" = true := by decide
example : resolveApiModel "anthropic" "text" "claude-sonnet" = "claude-3-5-sonnet-latest" := by
  decide
example : resolveApiModel "openai" "text" "gpt-5.2" = "gpt-5.2" := by decide
example :
    calcTextCostUsd "openai" "gpt-4.1-mini" { input := 1000000, output := 0, total := 1000000 }
      = 7/10 := by decide
example : calcTextCostUsd "openai" "nope" { input := 5, output := 5, total := 10 } = 0 := by
  decide
example : calcImageCostUsd "openai" "gpt-image-1-mini" 1 "low" none = 1/200 := by decide

/-! ## Normalization lemmas -/

/-- The default text pair is a known enabled catalog entry. -/
lemma default_text_valid : isValidTextModel defaultConfig.textProvider defaultConfig.textModel = true := by
  decide

/-- The default image pair is a known enabled catalog entry. -/
lemma default_image_valid : isValidImageModel defaultConfig.imageProvider defaultConfig.imageModel = true := by
  decide

lemma fixText_valid (c : EngineConfig) :
    isValidTextModel (fixText c).textProvider (fixText c).textModel = true := by
  unfold fixText
  split
  · assumption
  · exact default_text_valid

lemma fixText_image (c : EngineConfig) :
    (fixText c).imageProvider = c.imageProvider ∧ (fixText c).imageModel = c.imageModel := by
  unfold fixText
  split <;> exact ⟨rfl, rfl⟩

lemma fixImageAnthropic_text (c : EngineConfig) :
    (fixImageAnthropic c).textProvider = c.textProvider ∧
      (fixImageAnthropic c).textModel = c.textModel := by
  unfold fixImageAnthropic
  split <;> exact ⟨rfl, rfl⟩

lemma fixImagePair_text (c : EngineConfig) :
    (fixImagePair c).textProvider = c.textProvider ∧
      (fixImagePair c).textModel = c.textModel := by
  unfold fixImagePair
  split <;> exact ⟨rfl, rfl⟩

lemma fixImagePair_valid (c : EngineConfig) :
    isValidImageModel (fixImagePair c).imageProvider (fixImagePair c).imageModel = true := by
  unfold fixImagePair
  split
  · assumption
  · exact default_image_valid

/-- Every provider appearing in an enabled image-catalog entry is
`"openai"` or `"gemini"`. -/
lemma valid_image_provider {p m : String} (h : isValidImageModel p m = true) :
    p = "openai" ∨ p = "gemini" := by
  simp only [isValidImageModel, IMAGE_MODELS, List.any_cons, List.any_nil,
    Bool.or_eq_true, Bool.and_eq_true, beq_iff_eq] at h
  rcases h with ⟨⟨h, -⟩, -⟩ | ⟨⟨h, -⟩, -⟩ | ⟨⟨h, -⟩, -⟩ | h
  · exact Or.inl h.symm
  · exact Or.inl h.symm
  · exact Or.inr h.symm
  · exact absurd h (by decide)

/-- Shared validity facts about the output of `normalizeEngineConfig`. -/
lemma normalize_valid (input : Option PartialConfig) :
    isValidTextModel (normalizeEngineConfig input).textProvider
        (normalizeEngineConfig input).textModel = true ∧
      (normalizeEngineConfig input).imageProvider ≠ "anthropic" ∧
      isValidImageModel (normalizeEngineConfig input).imageProvider
        (normalizeEngineConfig input).imageModel = true := by
  unfold normalizeEngineConfig
  refine ⟨?_, ?_, fixImagePair_valid _⟩
  · have h1 := (fixImagePair_text (fixImageAnthropic (fixText (mergeConfig input))))
    have h2 := (fixImageAnthropic_text (fixText (mergeConfig input)))
    rw [h1.1, h1.2, h2.1, h2.2]
    exact fixText_valid _
  · have hv := fixImagePair_valid (fixImageAnthropic (fixText (mergeConfig input)))
    rcases valid_image_provider hv with h | h <;> rw [h] <;> decide

/-- A fully catalog-valid configuration is a fixed point of
`normalizeEngineConfig`. -/
lemma normalize_fixed (c : EngineConfig)
    (h1 : isValidTextModel c.textProvider c.textModel = true)
    (h2 : c.imageProvider ≠ "anthropic")
    (h3 : isValidImageModel c.imageProvider c.imageModel = true) :
    normalizeEngineConfig (some (toPartial c)) = c := by
  have hm : mergeConfig (some (toPartial c)) = c := rfl
  unfold normalizeEngineConfig
  rw [hm]
  unfold fixText
  rw [if_pos h1]
  unfold fixImageAnthropic
  rw [if_neg h2]
  unfold fixImagePair
  rw [if_pos h3]

/-! ## Claim C1 -/

/-- C1: for every input (any partial configuration, including an absent or
non-object one, unknown provider/model pairs, or `"anthropic"` as
`imageProvider`), `normalizeEngineConfig` returns a fully valid
`EngineConfig` (it is a total function, so it never throws): the
`(textProvider, textModel)` pair is a known enabled text-catalog entry,
`imageProvider` is never `"anthropic"`, the `(imageProvider, imageModel)`
pair is a known enabled image-catalog entry, and invalid fields are
replaced by the documented defaults. -/
theorem c1_normalize_always_valid (input : Option PartialConfig) :
    isValidTextModel (normalizeEngineConfig input).textProvider
        (normalizeEngineConfig input).textModel = true ∧
      (normalizeEngineConfig input).imageProvider ≠ "anthropic" ∧
      isValidImageModel (normalizeEngineConfig input).imageProvider
        (normalizeEngineConfig input).imageModel = true ∧
      (isValidTextModel (mergeConfig input).textProvider (mergeConfig input).textModel = false →
        (normalizeEngineConfig input).textProvider = defaultConfig.textProvider ∧
          (normalizeEngineConfig input).textModel = defaultConfig.textModel) ∧
      ((mergeConfig input).imageProvider = "anthropic" ∨
          isValidImageModel (mergeConfig input).imageProvider
            (mergeConfig input).imageModel = false →
        (normalizeEngineConfig input).imageProvider = defaultConfig.imageProvider ∧
          (normalizeEngineConfig input).imageModel = defaultConfig.imageModel) := by
  obtain ⟨h1, h2, h3⟩ := normalize_valid input
  refine ⟨h1, h2, h3, ?_, ?_⟩
  · intro hbad
    have ht := fixImagePair_text (fixImageAnthropic (fixText (mergeConfig input)))
    have ht2 := fixImageAnthropic_text (fixText (mergeConfig input))
    unfold normalizeEngineConfig
    rw [ht.1, ht.2, ht2.1, ht2.2]
    unfold fixText
    rw [if_neg (by rw [hbad]; exact Bool.false_ne_true)]
    exact ⟨rfl, rfl⟩
  · intro hbad
    have himg := fixText_image (mergeConfig input)
    unfold normalizeEngineConfig
    rcases hbad with hanth | hinvalid
    · unfold fixImageAnthropic
      rw [himg.1, if_pos hanth]
      unfold fixImagePair
      rw [if_pos (by exact default_image_valid)]
      exact ⟨rfl, rfl⟩
    · unfold fixImageAnthropic
      rw [himg.1]
      by_cases hanth2 : (mergeConfig input).imageProvider = "anthropic"
      · rw [if_pos hanth2]
        unfold fixImagePair
        rw [if_pos (by exact default_image_valid)]
        exact ⟨rfl, rfl⟩
      · rw [if_neg hanth2]
        unfold fixImagePair
        rw [himg.1, himg.2, if_neg (by rw [hinvalid]; exact Bool.false_ne_true)]
        exact ⟨rfl, rfl⟩

/-- A concrete junk configuration: unknown text pair, image-incapable
image vendor. -/
def junkConfigInput : PartialConfig :=
  { textProvider := some "nope", textModel := some "bad",
    imageProvider := some "anthropic", imageModel := some "bad" }

/-- Witness for C1 at a concrete junk configuration: every field invalid
(including the image vendor that cannot output images) is repaired to the
documented default. -/
theorem c1_witness :
    (normalizeEngineConfig (some junkConfigInput)).textProvider = "openai" ∧
      (normalizeEngineConfig (some junkConfigInput)).textModel = "gpt-4.1-mini" ∧
      (normalizeEngineConfig (some junkConfigInput)).imageProvider = "openai" ∧
      (normalizeEngineConfig (some junkConfigInput)).imageModel = "gpt-image-1-mini" := by
  have h := c1_normalize_always_valid (some junkConfigInput)
  obtain ⟨-, -, -, h4, h5⟩ := h
  obtain ⟨ha, hb⟩ := h4 (by decide)
  obtain ⟨hc, hd⟩ := h5 (Or.inl (by decide))
  exact ⟨ha, hb, hc, hd⟩

/-! ## Claim C9 -/

/-- C9: `normalizeEngineConfig` is idempotent — feeding its output back in
(as the partial configuration that output denotes) returns the same
configuration, i.e. every output is a fixed point of normalization. -/
theorem c9_normalize_idempotent (input : Option PartialConfig) :
    normalizeEngineConfig (some (toPartial (normalizeEngineConfig input)))
      = normalizeEngineConfig input := by
  obtain ⟨h1, h2, h3⟩ := normalize_valid input
  exact normalize_fixed _ h1 h2 h3

/-! ## Claim C4 -/

/-- The catalog list `resolveApiModel` (and `getModelOption`) searches:
`kind === "text" ? TEXT_MODELS : IMAGE_MODELS`. -/
def catalogFor (kind : String) : List ModelOption :=
  if kind = "text" then TEXT_MODELS else IMAGE_MODELS

lemma resolveApiModel_eq (p k id : String) :
    resolveApiModel p k id =
      match (catalogFor k).find?
          (fun m => m.enabled && m.provider == p && m.kind == k && m.id == id) with
      | some m =>
        match m.apiModel with
        | some s => if s = "" then id else s
        | none => id
      | none => id := rfl

/-- Any member of either catalog list belongs to one of the two lists. -/
lemma catalogFor_mem {k : String} {m : ModelOption} (h : m ∈ catalogFor k) :
    m ∈ TEXT_MODELS ∨ m ∈ IMAGE_MODELS := by
  unfold catalogFor at h
  split at h
  · exact Or.inl h
  · exact Or.inr h

/-- `resolveApiModel` returns either the id itself or one of the two
wire-model overrides present in the catalog. -/
lemma resolve_cases (p k id : String) :
    resolveApiModel p k id = id ∨
      resolveApiModel p k id = "claude-3-5-sonnet-latest" ∨
      resolveApiModel p k id = "claude-3-5-haiku-latest" := by
  rw [resolveApiModel_eq]
  cases hf : (catalogFor k).find?
      (fun m => m.enabled && m.provider == p && m.kind == k && m.id == id) with
  | none => exact Or.inl rfl
  | some m =>
    have hm := catalogFor_mem (List.mem_of_find?_eq_some hf)
    rcases hm with hm | hm <;>
      simp only [TEXT_MODELS, IMAGE_MODELS, List.mem_cons, List.not_mem_nil, or_false] at hm <;>
      rcases hm with rfl | rfl | rfl | rfl | rfl | rfl | rfl <;> simp

/-- No catalog entry has one of the wire-override strings as its id, so
resolving an override string is the identity. -/
lemma resolve_override_fixed (p k s : String)
    (hs : s = "claude-3-5-sonnet-latest" ∨ s = "claude-3-5-haiku-latest") :
    resolveApiModel p k s = s := by
  rw [resolveApiModel_eq]
  have hf : (catalogFor k).find?
      (fun m => m.enabled && m.provider == p && m.kind == k && m.id == s) = none := by
    rw [List.find?_eq_none]
    intro m hm
    have hm' := catalogFor_mem hm
    rcases hm' with hm' | hm' <;>
      simp only [TEXT_MODELS, IMAGE_MODELS, List.mem_cons, List.not_mem_nil, or_false] at hm' <;>
      rcases hm' with rfl | rfl | rfl | rfl | rfl | rfl | rfl <;>
      rcases hs with rfl | rfl <;> simp
  rw [hf]

/-- C4 (amended): `resolveApiModel` is total and idempotent; when an
enabled catalog entry matches `(provider, kind, id)` and carries a
non-empty wire-model override it returns that override; when no enabled
entry matches, or the matching entry has no override, it returns `id`
unchanged; and the result is non-empty whenever `id` is non-empty (for
the empty id and no catalog match the empty id passes through verbatim,
so the unconditional non-emptiness of the original claim fails). -/
theorem c4_resolveApiModel_spec :
    (∀ p k id m w, m ∈ catalogFor k → m.enabled = true → m.provider = p → m.kind = k →
        m.id = id → m.apiModel = some w → w ≠ "" → resolveApiModel p k id = w) ∧
      (∀ p k id m, m ∈ catalogFor k → m.enabled = true → m.provider = p → m.kind = k →
          m.id = id → m.apiModel = none → resolveApiModel p k id = id) ∧
      (∀ p k id, (∀ m, m ∈ catalogFor k →
            ¬(m.enabled = true ∧ m.provider = p ∧ m.kind = k ∧ m.id = id)) →
          resolveApiModel p k id = id) ∧
      (∀ p k id, resolveApiModel p k (resolveApiModel p k id) = resolveApiModel p k id) ∧
      (∀ p k id, id ≠ "" → resolveApiModel p k id ≠ "") := by
  refine ⟨?_, ?_, ?_, ?_, ?_⟩
  · intro p k id m w hmem hen hpro hkind hid hapi hw
    rcases catalogFor_mem hmem with hm | hm <;>
      simp only [TEXT_MODELS, IMAGE_MODELS, List.mem_cons, List.not_mem_nil, or_false] at hm <;>
      rcases hm with rfl | rfl | rfl | rfl | rfl | rfl | rfl
    all_goals simp only [Option.some.injEq, reduceCtorEq] at hapi
    all_goals
      subst hpro; subst hkind; subst hid; subst hapi
      decide
  · intro p k id m hmem hen hpro hkind hid hapi
    rcases catalogFor_mem hmem with hm | hm <;>
      simp only [TEXT_MODELS, IMAGE_MODELS, List.mem_cons, List.not_mem_nil, or_false] at hm <;>
      rcases hm with rfl | rfl | rfl | rfl | rfl | rfl | rfl
    all_goals simp only [reduceCtorEq] at hapi
    all_goals
      subst hpro; subst hkind; subst hid
      decide
  · intro p k id hno
    rw [resolveApiModel_eq]
    have hf : (catalogFor k).find?
        (fun m => m.enabled && m.provider == p && m.kind == k && m.id == id) = none := by
      rw [List.find?_eq_none]
      intro m hm hpm
      simp only [Bool.and_eq_true, beq_iff_eq] at hpm
      exact hno m hm ⟨hpm.1.1.1, hpm.1.1.2, hpm.1.2, hpm.2⟩
    rw [hf]
  · intro p k id
    rcases resolve_cases p k id with h | h | h
    · rw [h]; exact h
    · rw [h, resolve_override_fixed p k _ (Or.inl rfl)]
    · rw [h, resolve_override_fixed p k _ (Or.inr rfl)]
  · intro p k id hid
    rcases resolve_cases p k id with h | h | h <;> rw [h]
    · exact hid
    · decide
    · decide

/-- Counterexample to C4 as stated: for the empty id the result is the
empty string, so the returned string is not non-empty for every
`(provider, kind, id)`. -/
theorem c4_counterexample : resolveApiModel "openai" "text" "" = "" := by decide

/-- Witness for C4 at concrete inputs: the Anthropic text entry resolves
to its wire override, an unmapped pair passes through, resolution is
idempotent, and a non-empty unmapped id yields a non-empty result. -/
theorem c4_witness :
    resolveApiModel "anthropic" "text" "claude-sonnet" = "claude-3-5-sonnet-latest" ∧
      resolveApiModel "foo" "text" "bar" = "bar" ∧
      resolveApiModel "anthropic" "text" (resolveApiModel "anthropic" "text" "claude-sonnet")
        = resolveApiModel "anthropic" "text" "claude-sonnet" ∧
      resolveApiModel "openai" "image" "zzz" ≠ "" := by
  refine ⟨?_, ?_, c4_resolveApiModel_spec.2.2.2.1 "anthropic" "text" "claude-sonnet", ?_⟩
  · exact c4_resolveApiModel_spec.1 "anthropic" "text" "claude-sonnet"
      { id := "claude-sonnet", label := "Claude Sonnet", provider := "anthropic", kind := "text",
        enabled := true, apiModel := some "claude-3-5-sonnet-latest",
        capInputImage := some false, capOutputImage := none }
      "claude-3-5-sonnet-latest" (by decide) rfl rfl rfl rfl rfl (by decide)
  · exact c4_resolveApiModel_spec.2.2.1 "foo" "text" "bar" (by decide)
  · exact c4_resolveApiModel_spec.2.2.2.2 "openai" "image" "zzz" (by decide)

/-! ## Claim C5 -/

/-- `usd` (round to six decimal places) is monotone non-decreasing. -/
lemma usd_mono {a b : ℚ} (h : a ≤ b) : usd a ≤ usd b := by
  unfold usd
  rw [div_le_div_iff_of_pos_right (by norm_num)]
  rw [round_eq, round_eq]
  exact_mod_cast Int.floor_mono (by linarith)

/-- Every rate present in the text pricing table is non-negative. -/
lemma textRate_nonneg (v m : String) (r : TextRate) (h : textRate v m = some r) :
    0 ≤ r.inputPerM ∧ 0 ≤ r.outputPerM := by
  unfold textRate TEXT_RATES at h
  simp only [List.lookup] at h
  repeat' split at h
  all_goals try simp only [Option.bind_eq_bind, Option.some_bind, Option.none_bind] at h
  all_goals try simp only [List.lookup] at h
  all_goals repeat' split at h
  all_goals simp only [Option.some.injEq, reduceCtorEq] at h
  all_goals subst h
  all_goals constructor <;> norm_num

/-- C5: `calcTextCostUsd` is monotone non-decreasing in both the input and
the output token counts; it returns exactly 0 for every (vendor, model)
pair absent from the pricing table; and for present pairs it equals
`usage.input/1e6 × inputRate + usage.output/1e6 × outputRate` rounded to
six decimal places. -/
theorem c5_calcTextCostUsd_spec :
    (∀ v m (u u' : TokenUsage), u.input ≤ u'.input → u.output ≤ u'.output →
        calcTextCostUsd v m u ≤ calcTextCostUsd v m u') ∧
      (∀ v m, textRate v m = none → ∀ u, calcTextCostUsd v m u = 0) ∧
      (∀ v m r, textRate v m = some r → ∀ u,
        calcTextCostUsd v m u
          = usd (u.input / PER_M * r.inputPerM + u.output / PER_M * r.outputPerM)) := by
  refine ⟨?_, ?_, ?_⟩
  · intro v m u u' hi ho
    unfold calcTextCostUsd
    cases hr : textRate v m with
    | none => exact le_refl 0
    | some r =>
      obtain ⟨h1, h2⟩ := textRate_nonneg v m r hr
      apply usd_mono
      have hP : (0 : ℚ) < PER_M := by norm_num [PER_M]
      have hiq : u.input / PER_M * r.inputPerM ≤ u'.input / PER_M * r.inputPerM := by
        apply mul_le_mul_of_nonneg_right _ h1
        exact (div_le_div_iff_of_pos_right hP).mpr hi
      have hoq : u.output / PER_M * r.outputPerM ≤ u'.output / PER_M * r.outputPerM := by
        apply mul_le_mul_of_nonneg_right _ h2
        exact (div_le_div_iff_of_pos_right hP).mpr ho
      exact add_le_add hiq hoq
  · intro v m h u
    unfold calcTextCostUsd
    rw [h]
  · intro v m r h u
    unfold calcTextCostUsd
    rw [h]

/-- Witness for C5 at concrete inputs: monotonicity on a priced pair,
zero for an unpriced pair, and the formula for a priced pair. -/
theorem c5_witness :
    calcTextCostUsd "openai" "gpt-4.1-mini" { input := 100, output := 200, total := 300 }
        ≤ calcTextCostUsd "openai" "gpt-4.1-mini" { input := 150, output := 250, total := 400 } ∧
      calcTextCostUsd "acme" "gpt-4.1-mini" { input := 100, output := 200, total := 300 } = 0 ∧
      calcTextCostUsd "google" "gemini-2.5-pro" { input := 100, output := 200, total := 300 }
        = usd ((100 : ℚ) / PER_M * 1.25 + (200 : ℚ) / PER_M * 10.0) := by
  refine ⟨?_, ?_, ?_⟩
  · exact c5_calcTextCostUsd_spec.1 "openai" "gpt-4.1-mini"
      { input := 100, output := 200, total := 300 }
      { input := 150, output := 250, total := 400 } (by norm_num) (by norm_num)
  · exact c5_calcTextCostUsd_spec.2.1 "acme" "gpt-4.1-mini" (by decide)
      { input := 100, output := 200, total := 300 }
  · exact c5_calcTextCostUsd_spec.2.2 "google" "gemini-2.5-pro"
      { inputPerM := 1.25, outputPerM := 10.0 } (by decide)
      { input := 100, output := 200, total := 300 }

/-! ## JSON model

`safeParseJson` in `route.ts` is built on the JavaScript builtins
`JSON.parse` (strict parse of the whole text) and the greedy regular
expression `/\x7b[\s\S]*\x7d/` (first `{` through last `}`).  The builtin
is not repository code; it is modelled here by an executable parser over
an explicit value type.  Documented restrictions of the model (they only
narrow the set of inputs the round-trip theorems speak about, via the
`serOk` side condition, and are irrelevant to the extraction logic under
test): numbers are integers, strings contain no escape sequences, no
surrounding whitespace is accepted, duplicate keys are kept as-is. -/

mutual
inductive Json where
  | null : Json
  | bool : Bool → Json
  | num : Int → Json
  | str : String → Json
  | arr : JsonList → Json
  | obj : JsonFields → Json
inductive JsonList where
  | nil : JsonList
  | cons : Json → JsonList → JsonList
inductive JsonFields where
  | nil : JsonFields
  | cons : String → Json → JsonFields → JsonFields
end

/-- The decimal digit character for `n < 10`. -/
def digitChar (n : Nat) : Char := Char.ofNat (48 + n)

/-- Decimal digits of `n`, most significant first (fuel-indexed so that it
evaluates by kernel reduction; `serNat` supplies sufficient fuel). -/
def serNatAux : Nat → Nat → List Char
  | 0, _ => []
  | fuel + 1, n =>
    if n < 10 then [digitChar n] else serNatAux fuel (n / 10) ++ [digitChar (n % 10)]

/-- Decimal representation of a natural number. -/
def serNat (n : Nat) : List Char := serNatAux (n + 1) n

/-- Decimal representation of an integer (minus sign for negatives). -/
def serInt (i : Int) : List Char :=
  if i < 0 then '-' :: serNat (-i).toNat else serNat i.toNat

mutual
/-- JSON serialization (the model of `JSON.stringify` on the values the
round-trip theorems quantify over; no whitespace). -/
def ser : Json → List Char
  | .null => "null".data
  | .bool true => "true".data
  | .bool false => "false".data
  | .num i => serInt i
  | .str s => '"' :: s.data ++ ['"']
  | .arr .nil => ['[', ']']
  | .arr (.cons x xs) => '[' :: serList (JsonList.cons x xs) ++ [']']
  | .obj .nil => ['{', '}']
  | .obj (.cons k v fs) => '{' :: serFields (JsonFields.cons k v fs) ++ ['}']
def serList : JsonList → List Char
  | .nil => []
  | .cons x .nil => ser x
  | .cons x (.cons y ys) => ser x ++ ',' :: serList (JsonList.cons y ys)
def serFields : JsonFields → List Char
  | .nil => []
  | .cons k v .nil => '"' :: k.data ++ '"' :: ':' :: ser v
  | .cons k v (.cons k2 v2 fs) =>
    ('"' :: k.data ++ '"' :: ':' :: ser v) ++ ',' :: serFields (JsonFields.cons k2 v2 fs)
end

/-- A character that may appear in a string of a serializable value: not a
quote, not a backslash, not a control character. -/
def strOkChar (c : Char) : Bool := c != '"' && c != '\\' && decide (32 ≤ c.toNat)

/-- A string all of whose characters are `strOkChar`. -/
def strOk (s : String) : Bool := s.data.all strOkChar

mutual
/-- Serializable values: all strings (including keys) are escape-free. -/
def serOk : Json → Bool
  | .null => true
  | .bool _ => true
  | .num _ => true
  | .str s => strOk s
  | .arr l => serOkList l
  | .obj fs => serOkFields fs
def serOkList : JsonList → Bool
  | .nil => true
  | .cons x xs => serOk x && serOkList xs
def serOkFields : JsonFields → Bool
  | .nil => true
  | .cons k v fs => strOk k && serOk v && serOkFields fs
end

mutual
/-- Fuel bound for the parser on a serialized value. -/
def size : Json → Nat
  | .null => 1
  | .bool _ => 1
  | .num _ => 1
  | .str _ => 1
  | .arr .nil => 1
  | .arr (.cons x xs) => 1 + sizeList (JsonList.cons x xs)
  | .obj .nil => 1
  | .obj (.cons k v fs) => 1 + sizeFields (JsonFields.cons k v fs)
def sizeList : JsonList → Nat
  | .nil => 0
  | .cons x xs => 1 + size x + sizeList xs
def sizeFields : JsonFields → Nat
  | .nil => 0
  | .cons _ v fs => 1 + size v + sizeFields fs
end

/-- String-body parser: characters up to the next quote. -/
def parseStrAux : List Char → Option (List Char × List Char)
  | [] => none
  | c :: r =>
    if c = '"' then some ([], r)
    else (parseStrAux r).map fun p => (c :: p.1, p.2)

/-- Digit-run parser with an accumulator. -/
def parseDigits : Nat → List Char → Nat × List Char
  | acc, [] => (acc, [])
  | acc, c :: r =>
    if c.isDigit then parseDigits (10 * acc + (c.toNat - 48)) r else (acc, c :: r)

mutual
/-- Fuel-indexed JSON value parser (model of `JSON.parse`, which returns
the value and the unconsumed remainder; `jsonParse` requires the
remainder to be empty). -/
def parseVal : Nat → List Char → Option (Json × List Char)
  | 0, _ => none
  | _ + 1, [] => none
  | fuel + 1, c :: r =>
    if c = 'n' then
      match r with
      | 'u' :: 'l' :: 'l' :: r2 => some (.null, r2)
      | _ => none
    else if c = 't' then
      match r with
      | 'r' :: 'u' :: 'e' :: r2 => some (.bool true, r2)
      | _ => none
    else if c = 'f' then
      match r with
      | 'a' :: 'l' :: 's' :: 'e' :: r2 => some (.bool false, r2)
      | _ => none
    else if c = '"' then
      (parseStrAux r).map fun p => (.str (String.mk p.1), p.2)
    else if c = '[' then
      if r.head? = some ']' then some (.arr .nil, r.tail)
      else (parseElems fuel r).map fun p => (.arr p.1, p.2)
    else if c = '{' then
      if r.head? = some '}' then some (.obj .nil, r.tail)
      else (parseMembers fuel r).map fun p => (.obj p.1, p.2)
    else if c = '-' then
      match r with
      | d :: r2 =>
        if d.isDigit then
          let p := parseDigits 0 (d :: r2)
          some (.num (-(p.1 : Int)), p.2)
        else none
      | [] => none
    else if c.isDigit then
      let p := parseDigits 0 (c :: r)
      some (.num (p.1 : Int), p.2)
    else none
/-- Comma-separated array elements, terminated by `]`. -/
def parseElems : Nat → List Char → Option (JsonList × List Char)
  | 0, _ => none
  | fuel + 1, s =>
    match parseVal fuel s with
    | none => none
    | some (v, r1) =>
      if r1.head? = some ',' then
        match parseElems fuel r1.tail with
        | some (l, r2) => some (.cons v l, r2)
        | none => none
      else if r1.head? = some ']' then some (.cons v .nil, r1.tail)
      else none
/-- Comma-separated object members, terminated by `\x7d`. -/
def parseMembers : Nat → List Char → Option (JsonFields × List Char)
  | 0, _ => none
  | fuel + 1, s =>
    if s.head? = some '"' then
      match parseStrAux s.tail with
      | none => none
      | some (k, r1) =>
        if r1.head? = some ':' then
          match parseVal fuel r1.tail with
          | none => none
          | some (v, r2) =>
            if r2.head? = some ',' then
              match parseMembers fuel r2.tail with
              | some (fs, r3) => some (.cons (String.mk k) v fs, r3)
              | none => none
            else if r2.head? = some '}' then some (.cons (String.mk k) v .nil, r2.tail)
            else none
        else none
    else none
end

/-- Strict full-input parse: the model of `JSON.parse(text)` (succeeds
only when the whole text is one JSON value). -/
def jsonParse (s : List Char) : Option Json :=
  match parseVal (s.length + 1) s with
  | some (j, []) => some j
  | _ => none

/-- The greedy regex match `/\x7b[\s\S]*\x7d/`: from the first `{` of the
text through its last `}` (which must lie after that `{`). -/
def braceExtract (s : List Char) : Option (List Char) :=
  match s.dropWhile (fun c => c != '{') with
  | [] => none
  | c :: rest =>
    match (rest.reverse.dropWhile fun c => c != '}').reverse with
    | [] => none
    | r2 => some (c :: r2)

/-- `safeParseJson` of `route.ts`: direct parse, then best-effort parse of
the first-`{`-to-last-`}` substring, else null. -/
def safeParseJson (s : String) : Option Json :=
  match jsonParse s.data with
  | some j => some j
  | none =>
    match braceExtract s.data with
    | none => none
    | some t => jsonParse t

/-- Discriminator: is this value a JSON object? -/
def isObj : Json → Bool
  | .obj _ => true
  | _ => false

/-- The tail of serialized input never begins with a digit in the
positions where the number parser must stop. -/
def noDigitHead : List Char → Bool
  | [] => true
  | c :: _ => !c.isDigit

example : safeParseJson "5" = some (Json.num 5) := rfl
example : jsonParse "true".data = some (Json.bool true) := rfl
example : safeParseJson "hello" = none := rfl

/-! ## Round-trip lemmas: digits -/

lemma serNatAux_irrel : ∀ n f g, n < f → n < g → serNatAux f n = serNatAux g n := by
  intro n
  induction n using Nat.strongRecOn with
  | ind n ih =>
    intro f g hf hg
    cases f with
    | zero => omega
    | succ f' =>
      cases g with
      | zero => omega
      | succ g' =>
        simp only [serNatAux]
        split
        · rfl
        · rw [ih (n / 10) (by omega) f' g' (by omega) (by omega)]

lemma serNat_eq (n : Nat) :
    serNat n = if n < 10 then [digitChar n]
      else serNat (n / 10) ++ [digitChar (n % 10)] := by
  unfold serNat
  rw [show serNatAux (n + 1) n
      = if n < 10 then [digitChar n] else serNatAux n (n / 10) ++ [digitChar (n % 10)] from rfl]
  split
  · rfl
  · next h =>
    exact congrArg (· ++ [digitChar (n % 10)])
      (serNatAux_irrel (n / 10) n (n / 10 + 1) (by omega) (by omega))

lemma digitChar_isDigit {n : Nat} (h : n < 10) : (digitChar n).isDigit = true := by
  interval_cases n <;> decide

lemma digitChar_toNat {n : Nat} (h : n < 10) : (digitChar n).toNat - 48 = n := by
  interval_cases n <;> decide

lemma serNat_ne_nil (n : Nat) : serNat n ≠ [] := by
  rw [serNat_eq]
  split
  · exact List.cons_ne_nil _ _
  · exact List.append_ne_nil_of_right_ne_nil _ (List.cons_ne_nil _ _)

lemma serNat_all_digits : ∀ n c, c ∈ serNat n → c.isDigit = true := by
  intro n
  induction n using Nat.strongRecOn with
  | ind n ih =>
    intro c hc
    rw [serNat_eq] at hc
    split at hc
    · rw [List.mem_singleton] at hc
      subst hc
      exact digitChar_isDigit (by omega)
    · rw [List.mem_append, List.mem_singleton] at hc
      rcases hc with hc | hc
      · exact ih (n / 10) (by omega) c hc
      · subst hc
        exact digitChar_isDigit (by omega)

lemma isDigit_ne {c : Char} (h : c.isDigit = true) :
    c ≠ 'n' ∧ c ≠ 't' ∧ c ≠ 'f' ∧ c ≠ '"' ∧ c ≠ '[' ∧ c ≠ '{' ∧ c ≠ '-' ∧
      c ≠ ']' ∧ c ≠ '}' ∧ c ≠ ',' ∧ c ≠ ':' := by
  refine ⟨?_, ?_, ?_, ?_, ?_, ?_, ?_, ?_, ?_, ?_, ?_⟩ <;>
    (rintro rfl; exact absurd h (by decide))

lemma parseDigits_stop (acc : Nat) (rest : List Char) (h : noDigitHead rest = true) :
    parseDigits acc rest = (acc, rest) := by
  cases rest with
  | nil => rfl
  | cons c r =>
    simp only [noDigitHead, Bool.not_eq_true'] at h
    simp only [parseDigits, h, Bool.false_eq_true, if_false]

lemma parseDigits_append : ∀ n acc rest,
    parseDigits acc (serNat n ++ rest)
      = parseDigits (acc * 10 ^ (serNat n).length + n) rest := by
  intro n
  induction n using Nat.strongRecOn with
  | ind n ih =>
    intro acc rest
    rw [serNat_eq]
    split
    · next h =>
      simp only [List.singleton_append, List.length_singleton, parseDigits,
        digitChar_isDigit h, if_true, digitChar_toNat h, List.nil_append, pow_one]
      congr 1
      ring
    · next h =>
      rw [List.append_assoc, ih (n / 10) (by omega), List.singleton_append]
      have h10 : (n % 10) < 10 := by omega
      simp only [parseDigits, digitChar_isDigit h10, if_true, digitChar_toNat h10,
        List.length_append, List.length_singleton]
      congr 1
      have : 10 * (n / 10) + n % 10 = n := by omega
      rw [pow_succ]
      ring_nf
      omega

lemma parseDigits_serNat (n : Nat) (rest : List Char) (h : noDigitHead rest = true) :
    parseDigits 0 (serNat n ++ rest) = (n, rest) := by
  rw [parseDigits_append, zero_mul, zero_add, parseDigits_stop _ _ h]

/-! ## Round-trip lemmas: strings and shapes -/

lemma strOk_no_quote {s : String} (h : strOk s = true) : ∀ c ∈ s.data, c ≠ '"' := by
  intro c hc
  have := (List.all_eq_true.mp h) c hc
  simp only [strOkChar, Bool.and_eq_true, bne_iff_ne, ne_eq] at this
  exact this.1.1

lemma parseStrAux_append (l : List Char) (h : ∀ c ∈ l, c ≠ '"') (rest : List Char) :
    parseStrAux (l ++ '"' :: rest) = some (l, rest) := by
  induction l with
  | nil => rfl
  | cons c t ih =>
    have hc : c ≠ '"' := h c (List.mem_cons_self c t)
    have ih' := ih fun x hx => h x (List.mem_cons_of_mem c hx)
    simp only [List.cons_append, parseStrAux, if_neg hc]
    show Option.map (fun p => (c :: p.1, p.2)) (parseStrAux (t ++ '"' :: rest)) = _
    rw [ih']
    rfl

/-- A character that can open a serialized value: not a closing bracket,
closing brace or comma, so the structural delimiters stay unambiguous. -/
def headCharOk (c : Char) : Bool := c != ']' && c != '}' && c != ','

lemma headCharOk_ne {c : Char} (h : headCharOk c = true) :
    c ≠ ']' ∧ c ≠ '}' ∧ c ≠ ',' := by
  simpa [headCharOk, Bool.and_eq_true, bne_iff_ne, and_assoc] using h

lemma ser_head (j : Json) : ∃ c t, ser j = c :: t ∧ headCharOk c = true := by
  cases j with
  | null => exact ⟨'n', _, rfl, rfl⟩
  | bool b =>
    cases b with
    | true => exact ⟨'t', _, rfl, rfl⟩
    | false => exact ⟨'f', _, rfl, rfl⟩
  | num i =>
    by_cases hi : i < 0
    · exact ⟨'-', serNat (-i).toNat, by simp [ser, serInt, hi], rfl⟩
    · rcases hd : serNat i.toNat with _ | ⟨d, ds⟩
      · exact absurd hd (serNat_ne_nil _)
      · have hdig : d.isDigit = true :=
          serNat_all_digits i.toNat d (by rw [hd]; exact List.mem_cons_self d ds)
        obtain ⟨-, -, -, -, -, -, -, h1, h2, h3, -⟩ := isDigit_ne hdig
        refine ⟨d, ds, by simp [ser, serInt, hi, hd], ?_⟩
        simp [headCharOk, h1, h2, h3]
  | str s => exact ⟨'"', _, rfl, rfl⟩
  | arr l =>
    cases l with
    | nil => exact ⟨'[', _, rfl, rfl⟩
    | cons x xs => exact ⟨'[', _, rfl, rfl⟩
  | obj fs =>
    cases fs with
    | nil => exact ⟨'{', _, rfl, rfl⟩
    | cons k v fs => exact ⟨'{', _, rfl, rfl⟩

lemma serList_cons_head (x : Json) (xs : JsonList) :
    ∃ c t, serList (.cons x xs) = c :: t ∧ c ≠ ']' ∧ c ≠ '}' ∧ c ≠ ',' := by
  obtain ⟨c, t, hct, hok⟩ := ser_head x
  obtain ⟨h1, h2, h3⟩ := headCharOk_ne hok
  cases xs with
  | nil => exact ⟨c, t, by simp [serList, hct], h1, h2, h3⟩
  | cons y ys => exact ⟨c, t ++ ',' :: serList (.cons y ys),
      by simp [serList, hct], h1, h2, h3⟩

lemma serFields_cons_head (k : String) (v : Json) (fs : JsonFields) :
    ∃ t, serFields (.cons k v fs) = '"' :: t := by
  cases fs with
  | nil => exact ⟨k.data ++ '"' :: ':' :: ser v, rfl⟩
  | cons k2 v2 gs => exact ⟨(k.data ++ '"' :: ':' :: ser v) ++ ',' :: serFields (.cons k2 v2 gs),
      by simp [serFields]⟩

/-! ## Round-trip lemmas: parser dispatch -/

lemma parseVal_null (m : Nat) (r2 : List Char) :
    parseVal (m + 1) ('n' :: 'u' :: 'l' :: 'l' :: r2) = some (.null, r2) := rfl

lemma parseVal_true (m : Nat) (r2 : List Char) :
    parseVal (m + 1) ('t' :: 'r' :: 'u' :: 'e' :: r2) = some (.bool true, r2) := rfl

lemma parseVal_false (m : Nat) (r2 : List Char) :
    parseVal (m + 1) ('f' :: 'a' :: 'l' :: 's' :: 'e' :: r2) = some (.bool false, r2) := rfl

lemma parseVal_quote (m : Nat) (r : List Char) :
    parseVal (m + 1) ('"' :: r)
      = (parseStrAux r).map fun p => (.str (String.mk p.1), p.2) := rfl

lemma parseVal_lbrack (m : Nat) (r : List Char) :
    parseVal (m + 1) ('[' :: r)
      = if r.head? = some ']' then some (.arr .nil, r.tail)
        else (parseElems m r).map fun p => (.arr p.1, p.2) := rfl

lemma parseVal_lbrace (m : Nat) (r : List Char) :
    parseVal (m + 1) ('{' :: r)
      = if r.head? = some '}' then some (.obj .nil, r.tail)
        else (parseMembers m r).map fun p => (.obj p.1, p.2) := rfl

lemma parseVal_minus (m : Nat) (d : Char) (r2 : List Char) (h : d.isDigit = true) :
    parseVal (m + 1) ('-' :: d :: r2)
      = some (.num (-((parseDigits 0 (d :: r2)).1 : Int)), (parseDigits 0 (d :: r2)).2) := by
  show (if d.isDigit then _ else none) = _
  rw [if_pos h]

lemma parseVal_digit (m : Nat) (c : Char) (r : List Char) (h : c.isDigit = true) :
    parseVal (m + 1) (c :: r)
      = some (.num ((parseDigits 0 (c :: r)).1 : Int), (parseDigits 0 (c :: r)).2) := by
  obtain ⟨h1, h2, h3, h4, h5, h6, h7, -, -, -, -⟩ := isDigit_ne h
  simp only [parseVal, if_neg h1, if_neg h2, if_neg h3, if_neg h4, if_neg h5, if_neg h6,
    if_neg h7, h, if_true]

lemma size_pos (j : Json) : 1 ≤ size j := by
  cases j with
  | arr l => cases l <;> simp [size]
  | obj fs => cases fs <;> simp [size]
  | null => simp [size]
  | bool b => simp [size]
  | num i => simp [size]
  | str s => simp [size]

lemma sizeList_pos (x : Json) (xs : JsonList) : 1 ≤ sizeList (.cons x xs) := by
  simp only [sizeList]
  omega

lemma sizeFields_pos (k : String) (v : Json) (fs : JsonFields) :
    1 ≤ sizeFields (.cons k v fs) := by
  simp only [sizeFields]
  omega

/-! ## The parser/serializer round trip -/

theorem parse_ser_rt : ∀ n : Nat,
    (∀ j rest, serOk j = true → size j ≤ n → noDigitHead rest = true →
      parseVal n (ser j ++ rest) = some (j, rest)) ∧
    (∀ l rest, serOkList l = true → l ≠ JsonList.nil → sizeList l ≤ n →
      parseElems n (serList l ++ ']' :: rest) = some (l, rest)) ∧
    (∀ fs rest, serOkFields fs = true → fs ≠ JsonFields.nil → sizeFields fs ≤ n →
      parseMembers n (serFields fs ++ '}' :: rest) = some (fs, rest)) := by
  intro n
  induction n using Nat.strongRecOn with
  | ind n ih =>
    refine ⟨?_, ?_, ?_⟩
    · -- parseVal
      intro j rest hok hsz hnd
      cases n with
      | zero => exact absurd hsz (by have := size_pos j; omega)
      | succ m =>
      have ihm := ih m (Nat.lt_succ_self m)
      cases j with
      | null => exact parseVal_null m rest
      | bool b => cases b with
        | true => exact parseVal_true m rest
        | false => exact parseVal_false m rest
      | num i =>
        by_cases hi : i < 0
        · have hser : ser (.num i) = '-' :: serNat (-i).toNat := by
            simp [ser, serInt, hi]
          rcases hd : serNat (-i).toNat with _ | ⟨d, ds⟩
          · exact absurd hd (serNat_ne_nil _)
          have hdig : d.isDigit = true :=
            serNat_all_digits (-i).toNat d (by rw [hd]; exact List.mem_cons_self _ _)
          rw [hser, hd]
          show parseVal (m + 1) ('-' :: d :: (ds ++ rest)) = _
          rw [parseVal_minus m d (ds ++ rest) hdig]
          have hrw : d :: (ds ++ rest) = serNat (-i).toNat ++ rest := by rw [hd]; rfl
          rw [hrw, parseDigits_serNat _ _ hnd]
          have hcast : (((-i).toNat : Int)) = -i := Int.toNat_of_nonneg (by omega)
          rw [hcast, neg_neg]
        · have hser : ser (.num i) = serNat i.toNat := by
            simp [ser, serInt, hi]
          rcases hd : serNat i.toNat with _ | ⟨d, ds⟩
          · exact absurd hd (serNat_ne_nil _)
          have hdig : d.isDigit = true :=
            serNat_all_digits i.toNat d (by rw [hd]; exact List.mem_cons_self _ _)
          rw [hser, hd]
          show parseVal (m + 1) (d :: (ds ++ rest)) = _
          rw [parseVal_digit m d (ds ++ rest) hdig]
          have hrw : d :: (ds ++ rest) = serNat i.toNat ++ rest := by rw [hd]; rfl
          rw [hrw, parseDigits_serNat _ _ hnd]
          have hcast : ((i.toNat : Int)) = i := Int.toNat_of_nonneg (by omega)
          rw [hcast]
      | str s =>
        have hser : ser (.str s) ++ rest = '"' :: (s.data ++ '"' :: rest) := by
          simp [ser]
        rw [hser, parseVal_quote,
          parseStrAux_append s.data (strOk_no_quote (by simpa [serOk] using hok)) rest]
        rfl
      | arr l =>
        cases l with
        | nil => rfl
        | cons x xs =>
          have hser : ser (.arr (.cons x xs)) ++ rest
              = '[' :: (serList (.cons x xs) ++ ']' :: rest) := by
            simp [ser]
          rw [hser, parseVal_lbrack]
          have hcond : (serList (.cons x xs) ++ ']' :: rest).head? ≠ some ']' := by
            obtain ⟨c, t, hct, hc1, -, -⟩ := serList_cons_head x xs
            rw [hct]
            simp [hc1]
          rw [if_neg hcond,
            ihm.2.1 (JsonList.cons x xs) rest (by simpa [serOk] using hok) (by simp)
              (by simp only [size] at hsz; omega)]
          rfl
      | obj fs =>
        cases fs with
        | nil => rfl
        | cons k v gs =>
          have hser : ser (.obj (.cons k v gs)) ++ rest
              = '{' :: (serFields (.cons k v gs) ++ '}' :: rest) := by
            simp [ser]
          rw [hser, parseVal_lbrace]
          have hcond : (serFields (.cons k v gs) ++ '}' :: rest).head? ≠ some '}' := by
            obtain ⟨t, hct⟩ := serFields_cons_head k v gs
            rw [hct]
            simp
          rw [if_neg hcond,
            ihm.2.2 (JsonFields.cons k v gs) rest (by simpa [serOk] using hok) (by simp)
              (by simp only [size] at hsz; omega)]
          rfl
    · -- parseElems
      intro l rest hok hne hsz
      cases n with
      | zero =>
        cases l with
        | nil => exact absurd rfl hne
        | cons x xs => exact absurd hsz (by have := sizeList_pos x xs; omega)
      | succ m =>
      have ihm := ih m (Nat.lt_succ_self m)
      cases l with
      | nil => exact absurd rfl hne
      | cons v tail =>
        have hokv : serOk v = true ∧ serOkList tail = true := by
          simpa [serOkList, Bool.and_eq_true] using hok
        cases tail with
        | nil =>
          have hser : serList (.cons v .nil) ++ ']' :: rest = ser v ++ ']' :: rest := by
            simp [serList]
          rw [hser]
          simp only [parseElems]
          rw [ihm.1 v (']' :: rest) hokv.1
            (by simp only [sizeList] at hsz; omega) rfl]
          rfl
        | cons y ys =>
          have hser : serList (.cons v (.cons y ys)) ++ ']' :: rest
              = ser v ++ ',' :: (serList (.cons y ys) ++ ']' :: rest) := by
            simp [serList]
          rw [hser]
          simp only [parseElems]
          rw [ihm.1 v (',' :: (serList (.cons y ys) ++ ']' :: rest)) hokv.1
            (by simp only [sizeList] at hsz; omega) rfl]
          show (if (',' :: (serList (.cons y ys) ++ ']' :: rest)).head? = some ',' then _
            else _) = _
          rw [if_pos (by simp)]
          show (match parseElems m (serList (.cons y ys) ++ ']' :: rest) with
            | some (l, r2) => some (JsonList.cons v l, r2)
            | none => none) = _
          rw [ihm.2.1 (JsonList.cons y ys) rest hokv.2 (by simp)
            (by simp only [sizeList] at hsz ⊢; omega)]
    · -- parseMembers
      intro fs rest hok hne hsz
      cases n with
      | zero =>
        cases fs with
        | nil => exact absurd rfl hne
        | cons k v gs => exact absurd hsz (by have := sizeFields_pos k v gs; omega)
      | succ m =>
      have ihm := ih m (Nat.lt_succ_self m)
      cases fs with
      | nil => exact absurd rfl hne
      | cons k v gs =>
        have hokv : strOk k = true ∧ serOk v = true ∧ serOkFields gs = true := by
          simpa [serOkFields, Bool.and_eq_true, and_assoc] using hok
        cases gs with
        | nil =>
          have hser : serFields (.cons k v .nil) ++ '}' :: rest
              = '"' :: (k.data ++ '"' :: (':' :: (ser v ++ '}' :: rest))) := by
            simp [serFields]
          rw [hser]
          simp only [parseMembers, List.head?_cons, List.tail_cons, if_pos rfl]
          rw [parseStrAux_append k.data (strOk_no_quote hokv.1)]
          simp only [List.head?_cons, List.tail_cons, reduceIte]
          rw [ihm.1 v ('}' :: rest) hokv.2.1
            (by simp only [sizeFields] at hsz; omega) rfl]
          simp only [List.head?_cons, List.tail_cons, reduceIte]
          rw [if_neg (show ¬(some '}' = some ',') by decide)]
        | cons k2 v2 hs =>
          have hser : serFields (.cons k v (.cons k2 v2 hs)) ++ '}' :: rest
              = '"' :: (k.data ++ '"' ::
                  (':' :: (ser v ++ ',' :: (serFields (.cons k2 v2 hs) ++ '}' :: rest)))) := by
            simp [serFields]
          rw [hser]
          simp only [parseMembers, List.head?_cons, List.tail_cons, if_pos rfl]
          rw [parseStrAux_append k.data (strOk_no_quote hokv.1)]
          simp only [List.head?_cons, List.tail_cons, reduceIte]
          rw [ihm.1 v (',' :: (serFields (.cons k2 v2 hs) ++ '}' :: rest)) hokv.2.1
            (by simp only [sizeFields] at hsz; omega) rfl]
          simp only [List.head?_cons, List.tail_cons, reduceIte]
          rw [ihm.2.2 (JsonFields.cons k2 v2 hs) rest hokv.2.2 (by simp)
            (by simp only [sizeFields] at hsz ⊢; omega)]

/-! ## Fuel bound vs. serialized length -/

lemma serNat_len_pos (n : Nat) : 1 ≤ (serNat n).length :=
  List.length_pos.mpr (serNat_ne_nil n)

lemma size_le_len_aux : ∀ n : Nat,
    (∀ j, size j ≤ n → size j ≤ (ser j).length) ∧
    (∀ l, sizeList l ≤ n → sizeList l ≤ (serList l).length + 1) ∧
    (∀ fs, sizeFields fs ≤ n → sizeFields fs ≤ (serFields fs).length + 1) := by
  intro n
  induction n using Nat.strongRecOn with
  | ind n ih =>
    refine ⟨?_, ?_, ?_⟩
    · intro j hsz
      cases j with
      | null => simp [size, ser]
      | bool b => cases b <;> simp [size, ser]
      | num i =>
        have h1 : 1 ≤ (serInt i).length := by
          unfold serInt
          split
          · simp
          · exact serNat_len_pos _
        simpa [size, ser] using h1
      | str s => simp [size, ser]
      | arr l =>
        cases l with
        | nil => simp [size, ser]
        | cons x xs =>
          cases n with
          | zero => exact absurd hsz (by simp only [size]; have := sizeList_pos x xs; omega)
          | succ m =>
            have hl := (ih m (Nat.lt_succ_self m)).2.1 (JsonList.cons x xs)
              (by simp only [size] at hsz; omega)
            simp only [size, ser, List.length_cons, List.length_append,
              List.length_singleton] at hl ⊢
            omega
      | obj fs =>
        cases fs with
        | nil => simp [size, ser]
        | cons k v gs =>
          cases n with
          | zero => exact absurd hsz (by simp only [size]; have := sizeFields_pos k v gs; omega)
          | succ m =>
            have hl := (ih m (Nat.lt_succ_self m)).2.2 (JsonFields.cons k v gs)
              (by simp only [size] at hsz; omega)
            simp only [size, ser, List.length_cons, List.length_append,
              List.length_singleton] at hl ⊢
            omega
    · intro l hsz
      cases l with
      | nil => simp [sizeList, serList]
      | cons x xs =>
        cases n with
        | zero => exact absurd hsz (by have := sizeList_pos x xs; omega)
        | succ m =>
          have hx := (ih m (Nat.lt_succ_self m)).1 x (by simp only [sizeList] at hsz; omega)
          cases xs with
          | nil =>
            simp only [sizeList, serList] at hsz ⊢
            omega
          | cons y ys =>
            have hys := (ih m (Nat.lt_succ_self m)).2.1 (JsonList.cons y ys)
              (by simp only [sizeList] at hsz ⊢; omega)
            simp only [sizeList, serList, List.length_append, List.length_cons] at hsz hys ⊢
            omega
    · intro fs hsz
      cases fs with
      | nil => simp [sizeFields, serFields]
      | cons k v gs =>
        cases n with
        | zero => exact absurd hsz (by have := sizeFields_pos k v gs; omega)
        | succ m =>
          have hv := (ih m (Nat.lt_succ_self m)).1 v (by simp only [sizeFields] at hsz; omega)
          cases gs with
          | nil =>
            simp only [sizeFields, serFields, List.length_cons, List.length_append] at hsz ⊢
            omega
          | cons k2 v2 hs =>
            have hhs := (ih m (Nat.lt_succ_self m)).2.2 (JsonFields.cons k2 v2 hs)
              (by simp only [sizeFields] at hsz ⊢; omega)
            simp only [sizeFields, serFields, List.length_append, List.length_cons]
              at hsz hhs ⊢
            omega

lemma size_le_len (j : Json) : size j ≤ (ser j).length :=
  (size_le_len_aux (size j)).1 j (le_refl _)

/-- Strict parse of a serialized value recovers it. -/
lemma jsonParse_ser (j : Json) (h : serOk j = true) : jsonParse (ser j) = some j := by
  unfold jsonParse
  have hrt := (parse_ser_rt ((ser j).length + 1)).1 j [] h
    (le_trans (size_le_len j) (Nat.le_succ _)) rfl
  rw [List.append_nil] at hrt
  rw [hrt]

/-! ## Brace extraction -/

lemma dropWhile_append_all {p : Char → Bool} {pre rest : List Char}
    (h : ∀ c ∈ pre, p c = true) :
    (pre ++ rest).dropWhile p = rest.dropWhile p := by
  induction pre with
  | nil => rfl
  | cons c t ihp =>
    have hc := h c (List.mem_cons_self c t)
    simp only [List.cons_append, List.dropWhile_cons, hc, if_true]
    exact ihp fun x hx => h x (List.mem_cons_of_mem c hx)

lemma dropWhile_all_nil {p : Char → Bool} {l : List Char} (h : ∀ c ∈ l, p c = true) :
    l.dropWhile p = [] := by
  have h2 := @dropWhile_append_all p l [] h
  simpa using h2

/-- The serialization of an object is `{`, an inner segment, `}`. -/
lemma ser_obj_shape (j : Json) (h : isObj j = true) :
    ∃ inner, ser j = '{' :: inner ++ ['}'] := by
  cases j with
  | obj fs =>
    cases fs with
    | nil => exact ⟨[], rfl⟩
    | cons k v gs => exact ⟨serFields (.cons k v gs), rfl⟩
  | null => exact absurd h (by simp [isObj])
  | bool b => exact absurd h (by simp [isObj])
  | num i => exact absurd h (by simp [isObj])
  | str s => exact absurd h (by simp [isObj])
  | arr l => exact absurd h (by simp [isObj])

lemma braceExtract_wrap (pre post inner : List Char)
    (hpre : '{' ∉ pre) (hpost : '}' ∉ post) :
    braceExtract (pre ++ ('{' :: inner ++ ['}']) ++ post)
      = some ('{' :: inner ++ ['}']) := by
  unfold braceExtract
  have h1 : (pre ++ ('{' :: inner ++ ['}']) ++ post).dropWhile (fun c => c != '{')
      = '{' :: (inner ++ ['}'] ++ post) := by
    rw [List.append_assoc, dropWhile_append_all (fun c hc => by
      simp only [bne_iff_ne, ne_eq]
      intro he
      exact hpre (he ▸ hc))]
    simp [List.dropWhile_cons]
  rw [h1]
  dsimp only
  have h2 : ((inner ++ ['}'] ++ post).reverse.dropWhile fun c => c != '}').reverse
      = inner ++ ['}'] := by
    rw [List.reverse_append, dropWhile_append_all (fun c hc => by
      simp only [List.mem_reverse] at hc
      simp only [bne_iff_ne, ne_eq]
      intro he
      exact hpost (he ▸ hc))]
    rw [List.reverse_append]
    simp [List.dropWhile_cons]
  rw [h2]
  have hne : inner ++ ['}'] ≠ [] := List.append_ne_nil_of_right_ne_nil _ (by simp)
  cases hcase : inner ++ ['}'] with
  | nil => exact absurd hcase hne
  | cons a t =>
    exact congrArg (fun l => some ('{' :: l)) hcase.symm

/-! ## Claim C3 -/

/-- C3 (amended): (1) for any text that is exactly the serialization of a
JSON object (escape-free strings), `safeParseJson` returns that object;
(2) for any text wrapping one serialized JSON object in commentary — no
`{` before the object, no `}` after it, and the whole text not itself
valid JSON — `safeParseJson` still recovers exactly that object; (3) for
any text on which the direct parse fails and which contains no `{` at
all, `safeParseJson` returns null rather than throwing (it is a total
function).  The original claim's third part — null for every text with no
JSON object — fails because a text that is a valid non-object JSON value,
such as `"5"`, direct-parses successfully (see the counterexample). -/
theorem c3_safeParseJson_spec :
    (∀ (s : String) (j : Json), serOk j = true → isObj j = true → s.data = ser j →
      safeParseJson s = some j) ∧
    (∀ (s : String) (j : Json) (pre post : List Char),
      serOk j = true → isObj j = true → '{' ∉ pre → '}' ∉ post →
      s.data = pre ++ ser j ++ post → jsonParse s.data = none →
      safeParseJson s = some j) ∧
    (∀ s : String, jsonParse s.data = none → '{' ∉ s.data → safeParseJson s = none) := by
  refine ⟨?_, ?_, ?_⟩
  · intro s j hok hobj hs
    unfold safeParseJson
    rw [hs, jsonParse_ser j hok]
  · intro s j pre post hok hobj hpre hpost hs hfail
    obtain ⟨inner, hsh⟩ := ser_obj_shape j hobj
    unfold safeParseJson
    rw [hs] at hfail ⊢
    rw [hfail]
    dsimp only
    rw [hsh, braceExtract_wrap pre post inner hpre hpost]
    dsimp only
    rw [← hsh, jsonParse_ser j hok]
  · intro s hfail hbrace
    unfold safeParseJson
    rw [hfail]
    dsimp only
    unfold braceExtract
    rw [dropWhile_all_nil (fun c hc => by
      simp only [bne_iff_ne, ne_eq]
      intro he
      exact hbrace (he ▸ hc))]

/-- Counterexample to C3 as stated: the text `"5"` contains no JSON
object, yet `safeParseJson` returns the number 5 (the direct parse
succeeds), not null. -/
theorem c3_counterexample :
    safeParseJson "5" = some (Json.num 5) ∧ '{' ∉ "5".data := by
  exact ⟨rfl, by decide⟩

/-- A concrete serializable JSON object used by the C3 witness. -/
def jsonExample : Json :=
  Json.obj (JsonFields.cons "a" (Json.num 1)
    (JsonFields.cons "b" (Json.arr (JsonList.cons (Json.str "x") JsonList.nil))
      JsonFields.nil))

/-- Witness for C3 at concrete inputs: a serialized object round-trips,
the same object wrapped in prose commentary is recovered, and prose with
no brace yields null. -/
theorem c3_witness :
    safeParseJson (String.mk (ser jsonExample)) = some jsonExample ∧
      safeParseJson (String.mk ("note: ".data ++ ser jsonExample ++ " ok".data))
        = some jsonExample ∧
      safeParseJson "hello" = none := by
  refine ⟨?_, ?_, ?_⟩
  · exact c3_safeParseJson_spec.1 (String.mk (ser jsonExample)) jsonExample rfl rfl rfl
  · exact c3_safeParseJson_spec.2.1 (String.mk ("note: ".data ++ ser jsonExample ++ " ok".data))
      jsonExample "note: ".data " ok".data rfl rfl (by decide) (by decide) rfl rfl
  · exact c3_safeParseJson_spec.2.2 "hello" rfl (by decide)

/-! ## Route model (`app/api/generate/route.ts`)

The `POST` handler is embedded as a pure function.  External effects are
made explicit:

* vendor HTTP calls — the `Behavior` oracle carries, per stage, the
  outcome the vendor network would produce (`.error` models a non-success
  HTTP response or thrown adapter error; the empty string as an image
  payload models a response with no image field);
* the database — the returned `RunResult` carries the final state of the
  request's log row and its cost line items;
* the clock — the elapsed latency is a parameter;
* environment credentials — `Env` carries the truthiness of the three
  API-key variables.
-/

/-- Field access `obj?.key` on a parsed JSON value (non-objects give
`none`, like optional chaining on a primitive). -/
def getFieldAux : JsonFields → String → Option Json
  | .nil, _ => none
  | .cons k v fs, key => if k = key then some v else getFieldAux fs key

/-- `direction?.one_line_concept`-style access. -/
def Json.getField : Json → String → Option Json
  | .obj fs, key => getFieldAux fs key
  | _, _ => none

/-- JavaScript truthiness of a JSON value. -/
def jsTruthy : Json → Bool
  | .null => false
  | .bool b => b
  | .num n => n != 0
  | .str s => s != ""
  | .arr _ => true
  | .obj _ => true

mutual
/-- JavaScript `String(·)` coercion of a JSON value. -/
def jsToString : Json → String
  | .null => "null"
  | .bool true => "true"
  | .bool false => "false"
  | .num n => String.mk (serInt n)
  | .str s => s
  | .arr l => jsListToString l
  | .obj _ => "[object Object]"
/-- JavaScript array-to-string (join with commas; null elements blank). -/
def jsListToString : JsonList → String
  | .nil => ""
  | .cons x .nil =>
    match x with
    | .null => ""
    | x => jsToString x
  | .cons x (.cons y ys) =>
    (match x with
      | .null => ""
      | x => jsToString x) ++ "," ++ jsListToString (.cons y ys)
end

/-- `String(v || "")`: empty for an absent or falsy value, the string
coercion otherwise. -/
def jsOrEmptyString (v : Option Json) : String :=
  match v with
  | none => ""
  | some j => if jsTruthy j then jsToString j else ""

/-- The fallback vision object of stage 7 (parse failure substitute). -/
def defaultVisionJson (raw : String) : Json :=
  .obj (.cons "product_type" (.str "product")
    (.cons "immutable_elements" (.arr .nil)
      (.cons "distinguishing_features" (.arr .nil)
        (.cons "raw" (.str raw) .nil))))

/-- The fallback direction object of stage 8 (parse failure substitute). -/
def defaultDirectionJson (userConcept : String) : Json :=
  .obj (.cons "one_line_concept"
      (.str (if userConcept ≠ "" then userConcept else "스튜디오 라이팅으로 제품 선명 강조"))
    (.cons "product_description" (.str "the product (accurate description required)")
      (.cons "background" (.str "a clean neutral studio surface")
        (.cons "lighting_setup" (.str "three-point softbox setup")
          (.cons "lighting_purpose" (.str "create a clean premium silhouette and reveal texture")
            (.cons "camera_angle" (.str "3/4 front angle")
              (.cons "showcase_feature" (.str "the product’s main form and key brand elements")
                (.cons "key_detail" (.str "material texture and stitching")
                  (.cons "aspect_ratio" (.str "1:1") .nil)))))))))

/-- JavaScript `String.prototype.trim`: strip leading and trailing
whitespace (executable model; the library `String.trim` is equivalent but
does not evaluate by kernel reduction). -/
def jsTrim (s : String) : String :=
  String.mk (((s.data.dropWhile Char.isWhitespace).reverse.dropWhile
    Char.isWhitespace).reverse)

/-- `conceptUsed` derivation: the model's one-line summary if non-empty
after trimming, else the user concept, else the fixed default phrase. -/
def derivedConcept (direction : Json) (userConcept : String) : String :=
  let s := jsTrim (jsOrEmptyString (direction.getField "one_line_concept"))
  if s ≠ "" then s
  else if userConcept ≠ "" then userConcept
  else "스튜디오 무드로 제품 강조"

/-- Truthiness of the three environment API keys. -/
structure Env where
  openaiKey : Bool
  geminiKey : Bool
  anthropicKey : Bool
deriving DecidableEq, Repr

/-- Vendor-call oracle: what each stage's network call would return. -/
structure Behavior where
  vision : Except String (String × TokenUsage)
  concept : Except String (String × TokenUsage)
  image : Except String (String × TokenUsage)

/-- The engine chosen for the vision stage. -/
structure VisionEngine where
  provider : String
  vendor : String
  apiModel : String
deriving DecidableEq, Repr

/-- `chooseVisionEngine` of `route.ts`: the configured text engine, except
that an Anthropic text provider is replaced by OpenAI (first) or Gemini
(second) according to which credential is present, and fails when neither
is. -/
def chooseVisionEngine (cfg : EngineConfig) (openaiKey geminiKey : Bool) :
    Except String VisionEngine :=
  if cfg.textProvider = "anthropic" then
    if openaiKey then
      .ok { provider := "openai", vendor := getApiVendor "openai",
            apiModel := resolveApiModel "openai" "text" defaultConfig.textModel }
    else if geminiKey then
      .ok { provider := "gemini", vendor := getApiVendor "gemini",
            apiModel := resolveApiModel "gemini" "text" "gemini-2.5-flash" }
    else
      .error "Claude(Text) 선택 시 Vision 분석을 위해 OPENAI_API_KEY 또는 GEMINI_API_KEY가 필요합니다."
  else
    .ok { provider := cfg.textProvider, vendor := getApiVendor cfg.textProvider,
          apiModel := resolveApiModel cfg.textProvider "text" cfg.textModel }

/-- `callTextModel` adapter-level behavior: pass the vendor outcome
through, except that the Gemini and Anthropic adapters throw when their
key is absent (the OpenAI adapter's key is checked by the caller). -/
def callTextModelM (vendor : String) (env : Env)
    (r : Except String (String × TokenUsage)) : Except String (String × TokenUsage) :=
  if vendor = "openai" then r
  else if vendor = "google" then
    if !env.geminiKey then .error "GEMINI_API_KEY가 설정되지 않았습니다." else r
  else if vendor = "anthropic" then
    if !env.anthropicKey then .error "ANTHROPIC_API_KEY가 설정되지 않았습니다." else r
  else .error ("Unknown vendor: " ++ vendor)

/-- `callImageEdit` adapter-level behavior: OpenAI fails on a missing
image payload and reports no usage; Gemini needs its key, fails on a
missing payload and reports usage; Anthropic always fails. -/
def callImageEditM (vendor : String) (env : Env)
    (r : Except String (String × TokenUsage)) : Except String (String × Option TokenUsage) :=
  if vendor = "openai" then
    match r with
    | .error m => .error m
    | .ok (b, _) => if b = "" then .error "이미지 응답 파싱 실패" else .ok (b, none)
  else if vendor = "google" then
    if !env.geminiKey then .error "GEMINI_API_KEY가 설정되지 않았습니다."
    else
      match r with
      | .error m => .error m
      | .ok (b, u) => if b = "" then .error "Gemini 이미지 응답 파싱 실패" else .ok (b, some u)
  else if vendor = "anthropic" then .error "Anthropic은 이미지 생성/편집을 지원하지 않습니다."
  else .error ("Image vendor not supported: " ++ vendor)

/-- The request's `RequestLog` row. -/
structure LogRow where
  title : String
  userConcept : Option String
  conceptUsed : Option String
  textProvider : String
  textModel : String
  imageProvider : String
  imageModel : String
  success : Bool
  errorMessage : Option String
  totalCostUsd : ℚ
  latencyMs : ℚ
deriving DecidableEq, Repr

/-- One persisted `RequestCostLineItem` row. -/
structure CostItem where
  stage : String
  provider : String
  model : String
  inputTokens : Option ℚ
  outputTokens : Option ℚ
  totalTokens : Option ℚ
  imageSize : Option ℚ
  imageCount : Option ℚ
  costUsd : ℚ
deriving DecidableEq, Repr

/-- One attempted vendor network call. -/
structure VendorCall where
  stage : String
  vendor : String
  apiModel : String
deriving DecidableEq, Repr

/-- The HTTP response of the endpoint. -/
inductive Response where
  | ok (conceptUsed imageB64 : String)
  | err (status : Nat) (msg : String)
deriving DecidableEq, Repr

/-- Everything observable about one handled request. -/
structure RunResult where
  resp : Response
  log : Option LogRow
  items : List CostItem
  calls : List VendorCall
deriving DecidableEq, Repr

/-- The catch-block log update: success=false, the error message, the
elapsed latency — nothing else. -/
def failUpdate (l : LogRow) (m : String) (latency : ℚ) : LogRow :=
  { l with success := false, errorMessage := some m, latencyMs := latency }

/-- The configuration the handler works with: `normalizeEngineConfig`
applied to the parsed `engineConfig` field, or to `defaultConfig` when
`JSON.parse` throws (`none`). -/
def effectiveCfg (cfgInput : Option PartialConfig) : EngineConfig :=
  match cfgInput with
  | some p => normalizeEngineConfig (some p)
  | none => normalizeEngineConfig (some (toPartial defaultConfig))

/-- Stages 6-10 of the `POST` handler: create the log row, choose the
vision engine, run VISION / CONCEPT / IMAGE_EDIT with per-stage cost line
items, and finish with the success update — any stage failure takes the
catch-block path (`failUpdate`). -/
def runPipeline (cfg : EngineConfig) (title userConcept : String) (env : Env)
    (beh : Behavior) (latency : ℚ) : RunResult :=
  let textVendor := getApiVendor cfg.textProvider
  let imageVendor := getApiVendor cfg.imageProvider
  let log0 : LogRow :=
    { title := title, userConcept := if userConcept = "" then none else some userConcept,
      conceptUsed := none, textProvider := cfg.textProvider, textModel := cfg.textModel,
      imageProvider := cfg.imageProvider, imageModel := cfg.imageModel,
      success := false, errorMessage := none, totalCostUsd := 0, latencyMs := 0 }
  let textApiModel := resolveApiModel cfg.textProvider "text" cfg.textModel
  let imageApiModel := resolveApiModel cfg.imageProvider "image" cfg.imageModel
  match chooseVisionEngine cfg env.openaiKey env.geminiKey with
  | .error m =>
    { resp := .err 500 m, log := some (failUpdate log0 m latency), items := [], calls := [] }
  | .ok ve =>
    let calls1 : List VendorCall :=
      [{ stage := "VISION", vendor := ve.vendor, apiModel := ve.apiModel }]
    match callTextModelM ve.vendor env beh.vision with
    | .error m =>
      { resp := .err 500 m, log := some (failUpdate log0 m latency), items := [],
        calls := calls1 }
    | .ok (vText, vU) =>
      let vCost := calcTextCostUsd ve.vendor ve.apiModel vU
      let vItem : CostItem :=
        { stage := "VISION", provider := ve.provider, model := ve.apiModel,
          inputTokens := some vU.input, outputTokens := some vU.output,
          totalTokens := some vU.total, imageSize := none, imageCount := none,
          costUsd := vCost }
      let _visionJson := (safeParseJson vText).getD (defaultVisionJson vText)
      let calls2 : List VendorCall := calls1 ++
        [{ stage := "CONCEPT", vendor := textVendor, apiModel := textApiModel }]
      match callTextModelM textVendor env beh.concept with
      | .error m =>
        { resp := .err 500 m, log := some (failUpdate log0 m latency), items := [vItem],
          calls := calls2 }
      | .ok (cText, cU) =>
        let cCost := calcTextCostUsd textVendor textApiModel cU
        let cItem : CostItem :=
          { stage := "CONCEPT", provider := cfg.textProvider, model := textApiModel,
            inputTokens := some cU.input, outputTokens := some cU.output,
            totalTokens := some cU.total, imageSize := none, imageCount := none,
            costUsd := cCost }
        let direction := (safeParseJson cText).getD (defaultDirectionJson userConcept)
        let conceptUsed := derivedConcept direction userConcept
        let calls3 : List VendorCall := calls2 ++
          [{ stage := "IMAGE_EDIT", vendor := imageVendor, apiModel := imageApiModel }]
        match callImageEditM imageVendor env beh.image with
        | .error m =>
          { resp := .err 500 m, log := some (failUpdate log0 m latency),
            items := [vItem, cItem], calls := calls3 }
        | .ok (b64, iU) =>
          let iCost := calcImageCostUsd imageVendor imageApiModel 1 "low"
            (if imageVendor = "google" then iU else none)
          let iItem : CostItem :=
            { stage := "IMAGE_EDIT", provider := cfg.imageProvider, model := imageApiModel,
              inputTokens := none, outputTokens := none, totalTokens := none,
              imageSize := some 1024, imageCount := some 1, costUsd := iCost }
          let total := vCost + cCost + iCost
          let finalLog : LogRow :=
            { log0 with
              conceptUsed := some conceptUsed, success := true,
              errorMessage := none, latencyMs := latency, totalCostUsd := total }
          { resp := .ok conceptUsed b64, log := some finalLog,
            items := [vItem, cItem, iItem], calls := calls3 }

/-- Stages 3-5 of the `POST` handler: title/image validation, per-vendor
credential checks, and the Anthropic-image guard, in source order; all of
them return before the log row is created. -/
def postCore (title userConcept : String) (hasImage : Bool) (cfg : EngineConfig)
    (env : Env) (beh : Behavior) (latency : ℚ) : RunResult :=
  if title = "" then
    { resp := .err 400 "상품명(title)은 필수입니다.", log := none, items := [], calls := [] }
  else if !hasImage then
    { resp := .err 400 "이미지(image)는 필수입니다.", log := none, items := [], calls := [] }
  else
    let textVendor := getApiVendor cfg.textProvider
    let imageVendor := getApiVendor cfg.imageProvider
    if textVendor = "openai" && !env.openaiKey then
      { resp := .err 500 "OPENAI_API_KEY가 설정되지 않았습니다.", log := none, items := [], calls := [] }
    else if textVendor = "google" && !env.geminiKey then
      { resp := .err 500 "GEMINI_API_KEY가 설정되지 않았습니다.", log := none, items := [], calls := [] }
    else if textVendor = "anthropic" && !env.anthropicKey then
      { resp := .err 500 "ANTHROPIC_API_KEY가 설정되지 않았습니다.", log := none, items := [], calls := [] }
    else if imageVendor = "openai" && !env.openaiKey then
      { resp := .err 500 "OPENAI_API_KEY가 설정되지 않았습니다.", log := none, items := [], calls := [] }
    else if imageVendor = "google" && !env.geminiKey then
      { resp := .err 500 "GEMINI_API_KEY가 설정되지 않았습니다.", log := none, items := [], calls := [] }
    else if imageVendor = "anthropic" then
      { resp := .err 400 "Anthropic은 이미지 생성/편집을 지원하지 않습니다.", log := none, items := [], calls := [] }
    else
      runPipeline cfg title userConcept env beh latency

/-- The `POST` handler of `route.ts`: trim the inputs, normalize the
configuration (stage 1-2), then run validation, guards and the pipeline. -/
def postModel (rawTitle rawConcept : String) (hasImage : Bool)
    (cfgInput : Option PartialConfig) (env : Env) (beh : Behavior)
    (latency : ℚ) : RunResult :=
  postCore (jsTrim rawTitle) (jsTrim rawConcept) hasImage (effectiveCfg cfgInput) env beh
    latency

-- The `visionJson` binding mirrors the source (it feeds the concept
-- prompt, which carries no observable effect in this model).
example : (defaultVisionJson "raw").getField "product_type" = some (Json.str "product") := rfl

/-! ## Claim C8 -/

/-- C8: a request with an empty (post-trim) title or no image file gets an
HTTP 400 with an error message, and these checks precede log creation: no
RequestLog row, no cost line items (and no vendor call) are produced. -/
theorem c8_validation_before_log (rawTitle rawConcept : String) (hasImage : Bool)
    (cfgInput : Option PartialConfig) (env : Env) (beh : Behavior) (latency : ℚ)
    (h : jsTrim rawTitle = "" ∨ hasImage = false) :
    ∃ m, postModel rawTitle rawConcept hasImage cfgInput env beh latency
      = { resp := .err 400 m, log := none, items := [], calls := [] } := by
  unfold postModel postCore
  by_cases ht : jsTrim rawTitle = ""
  · rw [if_pos ht]
    exact ⟨_, rfl⟩
  · rcases h with h | h
    · exact absurd h ht
    · rw [if_neg ht, h]
      exact ⟨_, rfl⟩

/-- Witness for C8: an all-whitespace title is rejected with a 400 and no
log row; a valid title without an image likewise. -/
theorem c8_witness :
    (∃ m, postModel "  " "c" true none { openaiKey := true, geminiKey := true, anthropicKey := true }
      { vision := .ok ("", { input := 0, output := 0, total := 0 }),
        concept := .ok ("", { input := 0, output := 0, total := 0 }),
        image := .ok ("img", { input := 0, output := 0, total := 0 }) } 0
      = { resp := .err 400 m, log := none, items := [], calls := [] }) ∧
    (∃ m, postModel "t" "c" false none { openaiKey := true, geminiKey := true, anthropicKey := true }
      { vision := .ok ("", { input := 0, output := 0, total := 0 }),
        concept := .ok ("", { input := 0, output := 0, total := 0 }),
        image := .ok ("img", { input := 0, output := 0, total := 0 }) } 0
      = { resp := .err 400 m, log := none, items := [], calls := [] }) := by
  constructor
  · exact c8_validation_before_log "  " "c" true none _ _ 0 (Or.inl rfl)
  · exact c8_validation_before_log "t" "c" false none _ _ 0 (Or.inr rfl)

/-! ## Route lemmas -/

lemma effectiveCfg_valid (cfgInput : Option PartialConfig) :
    isValidTextModel (effectiveCfg cfgInput).textProvider
        (effectiveCfg cfgInput).textModel = true ∧
      (effectiveCfg cfgInput).imageProvider ≠ "anthropic" ∧
      isValidImageModel (effectiveCfg cfgInput).imageProvider
        (effectiveCfg cfgInput).imageModel = true := by
  cases cfgInput with
  | none => exact normalize_valid _
  | some p => exact normalize_valid _

/-- After normalization the image vendor is OpenAI or Google, never
Anthropic. -/
lemma imageVendor_cases (cfgInput : Option PartialConfig) :
    getApiVendor (effectiveCfg cfgInput).imageProvider = "openai" ∨
      getApiVendor (effectiveCfg cfgInput).imageProvider = "google" := by
  obtain ⟨-, -, h3⟩ := effectiveCfg_valid cfgInput
  rcases valid_image_provider h3 with h | h <;> rw [h]
  · exact Or.inl rfl
  · exact Or.inr rfl

/-- A successful image-edit call never carries an empty payload. -/
lemma callImageEditM_ok_ne (v : String) (env : Env)
    (r : Except String (String × TokenUsage)) (b : String) (u : Option TokenUsage)
    (h : callImageEditM v env r = .ok (b, u)) : b ≠ "" := by
  unfold callImageEditM at h
  repeat' split at h
  all_goals first
    | exact Except.noConfusion h
    | (next hbne =>
        obtain ⟨hb, -⟩ := Prod.mk.injEq .. ▸ Except.ok.inj h
        exact hb ▸ hbne)

/-- When `postCore` answers 200, none of the guards fired, so the result
is exactly the pipeline's result. -/
lemma postCore_ok_eq (t uc : String) (hi : Bool) (cfg : EngineConfig) (env : Env)
    (beh : Behavior) (lat : ℚ) (cu img : String)
    (h : (postCore t uc hi cfg env beh lat).resp = .ok cu img) :
    postCore t uc hi cfg env beh lat = runPipeline cfg t uc env beh lat := by
  unfold postCore at h ⊢
  dsimp only at h ⊢
  by_cases h1 : t = ""
  · rw [if_pos h1] at h
    exact absurd h (by simp)
  rw [if_neg h1] at h ⊢
  by_cases h2 : (!hi) = true
  · rw [if_pos h2] at h
    exact absurd h (by simp)
  rw [if_neg h2] at h ⊢
  by_cases h3 : (decide (getApiVendor cfg.textProvider = "openai") && !env.openaiKey) = true
  · rw [if_pos h3] at h
    exact absurd h (by simp)
  rw [if_neg h3] at h ⊢
  by_cases h4 : (decide (getApiVendor cfg.textProvider = "google") && !env.geminiKey) = true
  · rw [if_pos h4] at h
    exact absurd h (by simp)
  rw [if_neg h4] at h ⊢
  by_cases h5 : (decide (getApiVendor cfg.textProvider = "anthropic") && !env.anthropicKey) = true
  · rw [if_pos h5] at h
    exact absurd h (by simp)
  rw [if_neg h5] at h ⊢
  by_cases h6 : (decide (getApiVendor cfg.imageProvider = "openai") && !env.openaiKey) = true
  · rw [if_pos h6] at h
    exact absurd h (by simp)
  rw [if_neg h6] at h ⊢
  by_cases h7 : (decide (getApiVendor cfg.imageProvider = "google") && !env.geminiKey) = true
  · rw [if_pos h7] at h
    exact absurd h (by simp)
  rw [if_neg h7] at h ⊢
  by_cases h8 : getApiVendor cfg.imageProvider = "anthropic"
  · rw [if_pos h8] at h
    exact absurd h (by simp)
  rw [if_neg h8]

/-! ## Claim C6 -/

/-- C6: on every successful request (the handler answered 200), the final
log row records success=true with totalCostUsd exactly the sum of the
three persisted cost line items (VISION, CONCEPT, IMAGE_EDIT in order),
the row's conceptUsed equals the concept string in the response, and the
response's base64 image is non-empty. -/
theorem c6_success_consistency (rawTitle rawConcept : String) (hasImage : Bool)
    (cfgInput : Option PartialConfig) (env : Env) (beh : Behavior) (latency : ℚ)
    (cu img : String)
    (h : (postModel rawTitle rawConcept hasImage cfgInput env beh latency).resp
      = .ok cu img) :
    ∃ row iV iC iI,
      (postModel rawTitle rawConcept hasImage cfgInput env beh latency).log = some row ∧
      (postModel rawTitle rawConcept hasImage cfgInput env beh latency).items
        = [iV, iC, iI] ∧
      iV.stage = "VISION" ∧ iC.stage = "CONCEPT" ∧ iI.stage = "IMAGE_EDIT" ∧
      row.success = true ∧
      row.totalCostUsd = iV.costUsd + iC.costUsd + iI.costUsd ∧
      row.conceptUsed = some cu ∧
      img ≠ "" := by
  have hcore : ∀ (title userConcept : String) (cfg : EngineConfig) R,
      postCore title userConcept hasImage cfg env beh latency = R →
      R.resp = .ok cu img →
      ∃ row iV iC iI, R.log = some row ∧ R.items = [iV, iC, iI] ∧
        iV.stage = "VISION" ∧ iC.stage = "CONCEPT" ∧ iI.stage = "IMAGE_EDIT" ∧
        row.success = true ∧
        row.totalCostUsd = iV.costUsd + iC.costUsd + iI.costUsd ∧
        row.conceptUsed = some cu ∧ img ≠ "" := by
    intro title userConcept cfg R hR hresp
    have hrp : ∀ S, runPipeline cfg title userConcept env beh latency = S →
        S.resp = .ok cu img →
        ∃ row iV iC iI, S.log = some row ∧ S.items = [iV, iC, iI] ∧
          iV.stage = "VISION" ∧ iC.stage = "CONCEPT" ∧ iI.stage = "IMAGE_EDIT" ∧
          row.success = true ∧
          row.totalCostUsd = iV.costUsd + iC.costUsd + iI.costUsd ∧
          row.conceptUsed = some cu ∧ img ≠ "" := by
      intro S hS hSresp
      unfold runPipeline at hS
      dsimp only at hS
      repeat' split at hS
      all_goals subst hS
      all_goals try exact Response.noConfusion hSresp
      all_goals
        obtain ⟨hcu, himg⟩ := Response.ok.inj hSresp
        subst hcu
        subst himg
        refine ⟨_, _, _, _, rfl, rfl, rfl, rfl, rfl, rfl, rfl, rfl, ?_⟩
        exact callImageEditM_ok_ne _ _ _ _ _ (by assumption)
    subst hR
    have heq := postCore_ok_eq title userConcept hasImage cfg env beh latency cu img hresp
    rw [heq] at hresp ⊢
    exact hrp _ rfl hresp
  exact hcore (jsTrim rawTitle) (jsTrim rawConcept) (effectiveCfg cfgInput) _ rfl h

/-! ## Concrete route fixtures -/

/-- All three credentials present. -/
def allKeys : Env := { openaiKey := true, geminiKey := true, anthropicKey := true }

/-- Zero token usage. -/
def zeroUsage : TokenUsage := { input := 0, output := 0, total := 0 }

/-- All three vendor calls succeed (non-JSON text, non-empty image). -/
def okBehavior : Behavior :=
  { vision := .ok ("", zeroUsage), concept := .ok ("", zeroUsage),
    image := .ok ("img", zeroUsage) }

/-- Witness for C6 at a concrete successful run with the default
configuration. -/
theorem c6_witness :
    ∃ row iV iC iI,
      (postModel "t" "" true none allKeys okBehavior 5).log = some row ∧
      (postModel "t" "" true none allKeys okBehavior 5).items = [iV, iC, iI] ∧
      iV.stage = "VISION" ∧ iC.stage = "CONCEPT" ∧ iI.stage = "IMAGE_EDIT" ∧
      row.success = true ∧
      row.totalCostUsd = iV.costUsd + iC.costUsd + iI.costUsd ∧
      row.conceptUsed = some "스튜디오 라이팅으로 제품 선명 강조" ∧
      ("img" : String) ≠ "" :=
  c6_success_consistency "t" "" true none allKeys okBehavior 5
    "스튜디오 라이팅으로 제품 선명 강조" "img" rfl

/-! ## Claim C10 -/

/-- Every pipeline-level failure response carries status 500. -/
lemma runPipeline_resp_500 (cfg : EngineConfig) (t uc : String) (env : Env)
    (beh : Behavior) (lat : ℚ) (s : Nat) (m : String)
    (h : (runPipeline cfg t uc env beh lat).resp = .err s m) : s = 500 := by
  generalize hS : runPipeline cfg t uc env beh lat = S at h
  unfold runPipeline at hS
  dsimp only at hS
  repeat' split at hS
  all_goals subst hS
  all_goals try exact Response.noConfusion h
  all_goals exact (Response.err.inj h).1.symm

/-- When `postCore` produced a log row, none of the guards fired, so the
result is exactly the pipeline's result. -/
lemma postCore_log_eq (t uc : String) (hi : Bool) (cfg : EngineConfig) (env : Env)
    (beh : Behavior) (lat : ℚ) (row : LogRow)
    (h : (postCore t uc hi cfg env beh lat).log = some row) :
    postCore t uc hi cfg env beh lat = runPipeline cfg t uc env beh lat := by
  unfold postCore at h ⊢
  dsimp only at h ⊢
  by_cases h1 : t = ""
  · rw [if_pos h1] at h
    exact absurd h (by simp)
  rw [if_neg h1] at h ⊢
  by_cases h2 : (!hi) = true
  · rw [if_pos h2] at h
    exact absurd h (by simp)
  rw [if_neg h2] at h ⊢
  by_cases h3 : (decide (getApiVendor cfg.textProvider = "openai") && !env.openaiKey) = true
  · rw [if_pos h3] at h
    exact absurd h (by simp)
  rw [if_neg h3] at h ⊢
  by_cases h4 : (decide (getApiVendor cfg.textProvider = "google") && !env.geminiKey) = true
  · rw [if_pos h4] at h
    exact absurd h (by simp)
  rw [if_neg h4] at h ⊢
  by_cases h5 : (decide (getApiVendor cfg.textProvider = "anthropic") && !env.anthropicKey) = true
  · rw [if_pos h5] at h
    exact absurd h (by simp)
  rw [if_neg h5] at h ⊢
  by_cases h6 : (decide (getApiVendor cfg.imageProvider = "openai") && !env.openaiKey) = true
  · rw [if_pos h6] at h
    exact absurd h (by simp)
  rw [if_neg h6] at h ⊢
  by_cases h7 : (decide (getApiVendor cfg.imageProvider = "google") && !env.geminiKey) = true
  · rw [if_pos h7] at h
    exact absurd h (by simp)
  rw [if_neg h7] at h ⊢
  by_cases h8 : getApiVendor cfg.imageProvider = "anthropic"
  · rw [if_pos h8] at h
    exact absurd h (by simp)
  rw [if_neg h8]

/-- C10: whenever a request fails after the log row was created (the row
exists and the response is an error), the terminal update wrote only
success=false, the error message and the latency: the row's totalCostUsd
is still its initial 0 and conceptUsed still null, regardless of the cost
line items persisted for completed stages. -/
theorem c10_failure_log_frame (rawTitle rawConcept : String) (hasImage : Bool)
    (cfgInput : Option PartialConfig) (env : Env) (beh : Behavior) (latency : ℚ)
    (row : LogRow) (s : Nat) (m : String)
    (hlog : (postModel rawTitle rawConcept hasImage cfgInput env beh latency).log = some row)
    (hresp : (postModel rawTitle rawConcept hasImage cfgInput env beh latency).resp
      = .err s m) :
    s = 500 ∧ row.success = false ∧ row.errorMessage = some m ∧
      row.latencyMs = latency ∧ row.totalCostUsd = 0 ∧ row.conceptUsed = none := by
  have hlog' : (postCore (jsTrim rawTitle) (jsTrim rawConcept) hasImage
      (effectiveCfg cfgInput) env beh latency).log = some row := hlog
  have heq := postCore_log_eq (jsTrim rawTitle) (jsTrim rawConcept) hasImage
    (effectiveCfg cfgInput) env beh latency row hlog'
  have hlog2 : (runPipeline (effectiveCfg cfgInput) (jsTrim rawTitle) (jsTrim rawConcept)
      env beh latency).log = some row := by rw [← heq]; exact hlog'
  have hresp2 : (runPipeline (effectiveCfg cfgInput) (jsTrim rawTitle) (jsTrim rawConcept)
      env beh latency).resp = .err s m := by
    rw [← heq]
    exact hresp
  generalize hS : runPipeline (effectiveCfg cfgInput) (jsTrim rawTitle) (jsTrim rawConcept)
    env beh latency = S at hlog2 hresp2
  unfold runPipeline at hS
  dsimp only at hS
  repeat' split at hS
  all_goals subst hS
  all_goals try exact absurd hresp2 (Response.noConfusion hresp2)
  all_goals
    obtain ⟨hs, hm⟩ := Response.err.inj hresp2
    obtain hrow := Option.some.inj hlog2
    subst hs
    subst hm
    subst hrow
    exact ⟨rfl, rfl, rfl, rfl, rfl, rfl⟩

/-- Vision and concept succeed with 1M+1M tokens each; the image edit
fails. -/
def failBehavior : Behavior :=
  { vision := .ok ("", { input := 1000000, output := 1000000, total := 2000000 }),
    concept := .ok ("", { input := 1000000, output := 1000000, total := 2000000 }),
    image := .error "boom" }

/-- The log row left behind by the `failBehavior` run. -/
def c10Row : LogRow :=
  { title := "t", userConcept := none, conceptUsed := none,
    textProvider := "openai", textModel := "gpt-4.1-mini",
    imageProvider := "openai", imageModel := "gpt-image-1-mini",
    success := false, errorMessage := some "boom", totalCostUsd := 0, latencyMs := 9 }

/-- Witness for C10 at a concrete run whose image stage fails after two
costly stages: the row keeps totalCostUsd 0 and conceptUsed null even
though the two persisted line items carry 3.5 USD each. -/
theorem c10_witness :
    ∃ row, (postModel "t" "" true none allKeys failBehavior 9).log = some row ∧
      row.success = false ∧ row.errorMessage = some "boom" ∧ row.latencyMs = 9 ∧
      row.totalCostUsd = 0 ∧ row.conceptUsed = none ∧
      ((postModel "t" "" true none allKeys failBehavior 9).items.map fun i => i.costUsd)
        = [7/2, 7/2] := by
  have hlog : (postModel "t" "" true none allKeys failBehavior 9).log = some c10Row := by
    decide
  have h := c10_failure_log_frame "t" "" true none allKeys failBehavior 9 c10Row 500 "boom"
    hlog (by decide)
  exact ⟨c10Row, hlog, h.2.1, h.2.2.1, h.2.2.2.1, h.2.2.2.2.1, h.2.2.2.2.2, by decide⟩

/-! ## Claim C7 -/

/-- C7: when the configured text vendor is Anthropic (no image-input
understanding), the vision stage substitutes a fallback engine in the
fixed order OpenAI first (using the default text model) then Gemini
(using gemini-2.5-flash), selected by which credential is present; and
when neither fallback credential is present an otherwise valid request
fails with a 500 configuration error before any log row, cost line item
or vendor network call. -/
theorem c7_vision_fallback :
    (∀ (cfg : EngineConfig) (gk : Bool), cfg.textProvider = "anthropic" →
      chooseVisionEngine cfg true gk
        = .ok { provider := "openai", vendor := "openai", apiModel := "gpt-4.1-mini" }) ∧
    (∀ cfg : EngineConfig, cfg.textProvider = "anthropic" →
      chooseVisionEngine cfg false true
        = .ok { provider := "gemini", vendor := "google", apiModel := "gemini-2.5-flash" }) ∧
    (∀ (rawTitle rawConcept : String) (cfgInput : Option PartialConfig) (env : Env)
        (beh : Behavior) (latency : ℚ),
      jsTrim rawTitle ≠ "" →
      (effectiveCfg cfgInput).textProvider = "anthropic" →
      env.openaiKey = false → env.geminiKey = false →
      ∃ m, postModel rawTitle rawConcept true cfgInput env beh latency
        = { resp := .err 500 m, log := none, items := [], calls := [] }) := by
  refine ⟨?_, ?_, ?_⟩
  · intro cfg gk h
    unfold chooseVisionEngine
    rw [if_pos h]
    rfl
  · intro cfg h
    unfold chooseVisionEngine
    rw [if_pos h]
    rfl
  · intro rawTitle rawConcept cfgInput env beh latency htitle htext hok hgk
    unfold postModel postCore
    dsimp only
    rw [if_neg htitle, if_neg (show ¬((!true) = true) by decide), htext]
    rw [if_neg (show ¬((decide (getApiVendor "anthropic" = "openai") && !env.openaiKey) = true)
      by simp [getApiVendor])]
    rw [if_neg (show ¬((decide (getApiVendor "anthropic" = "google") && !env.geminiKey) = true)
      by simp [getApiVendor])]
    by_cases hak : env.anthropicKey = true
    · rw [if_neg (show ¬((decide (getApiVendor "anthropic" = "anthropic")
          && !env.anthropicKey) = true) by simp [getApiVendor, hak])]
      rcases imageVendor_cases cfgInput with himg | himg
      · rw [himg]
        rw [if_pos (show (decide (("openai" : String) = "openai") && !env.openaiKey) = true
          by simp [hok])]
        exact ⟨_, rfl⟩
      · rw [himg]
        rw [if_neg (show ¬((decide (("google" : String) = "openai") && !env.openaiKey) = true)
          by simp)]
        rw [if_pos (show (decide (("google" : String) = "google") && !env.geminiKey) = true
          by simp [hgk])]
        exact ⟨_, rfl⟩
    · rw [if_pos (show (decide (getApiVendor "anthropic" = "anthropic")
        && !env.anthropicKey) = true by
          simp only [Bool.not_eq_true] at hak
          simp [getApiVendor, hak])]
      exact ⟨_, rfl⟩

/-- A valid configuration that selects Anthropic as the text engine. -/
def anthroTextInput : PartialConfig :=
  { textProvider := some "anthropic", textModel := some "claude-sonnet",
    imageProvider := none, imageModel := none }

/-- Witness for C7: the OpenAI fallback, the Gemini fallback, and the
no-fallback-credential failure, each at concrete inputs. -/
theorem c7_witness :
    chooseVisionEngine (effectiveCfg (some anthroTextInput)) true false
        = .ok { provider := "openai", vendor := "openai", apiModel := "gpt-4.1-mini" } ∧
      chooseVisionEngine (effectiveCfg (some anthroTextInput)) false true
        = .ok { provider := "gemini", vendor := "google", apiModel := "gemini-2.5-flash" } ∧
      ∃ m, postModel "t" "" true (some anthroTextInput)
          { openaiKey := false, geminiKey := false, anthropicKey := true } okBehavior 0
        = { resp := .err 500 m, log := none, items := [], calls := [] } := by
  refine ⟨?_, ?_, ?_⟩
  · exact c7_vision_fallback.1 (effectiveCfg (some anthroTextInput)) false (by decide)
  · exact c7_vision_fallback.2.1 (effectiveCfg (some anthroTextInput)) (by decide)
  · exact c7_vision_fallback.2.2 "t" "" (some anthroTextInput)
      { openaiKey := false, geminiKey := false, anthropicKey := true } okBehavior 0
      (by decide) (by decide) rfl rfl

/-! ## Claim C2 -/

/-- A supplied configuration selecting Anthropic as the image engine. -/
def anthImageInput : PartialConfig :=
  { textProvider := none, textModel := none,
    imageProvider := some "anthropic", imageModel := none }

/-- Counterexample to C2 as stated: a request whose supplied engineConfig
selects Anthropic as the image engine does NOT fail fast with a 400-class
error — it succeeds end-to-end, and three vendor network calls are
attempted (against the normalized default engines). -/
theorem c2_counterexample :
    (postModel "t" "" true (some anthImageInput) allKeys okBehavior 0).resp
        = Response.ok "스튜디오 라이팅으로 제품 선명 강조" "img" ∧
      (postModel "t" "" true (some anthImageInput) allKeys okBehavior 0).calls ≠ [] := by
  constructor
  · rfl
  · decide

/-- C2 (amended): a supplied engineConfig selecting Anthropic as the image
engine is silently repaired by normalization before any guard runs — the
request proceeds with the documented default image engine — and the
handler's 400 "Anthropic cannot edit images" guard is unreachable: no
request ever receives that response. -/
theorem c2_anthropic_image_guard_dead :
    (∀ (rawTitle rawConcept : String) (hasImage : Bool)
        (cfgInput : Option PartialConfig) (env : Env) (beh : Behavior) (latency : ℚ),
      (postModel rawTitle rawConcept hasImage cfgInput env beh latency).resp
        ≠ Response.err 400 "Anthropic은 이미지 생성/편집을 지원하지 않습니다.") ∧
    (∀ p : PartialConfig, p.imageProvider = some "anthropic" →
      (normalizeEngineConfig (some p)).imageProvider = defaultConfig.imageProvider ∧
        (normalizeEngineConfig (some p)).imageModel = defaultConfig.imageModel) := by
  constructor
  · intro rawTitle rawConcept hasImage cfgInput env beh latency hcontra
    unfold postModel postCore at hcontra
    dsimp only at hcontra
    repeat' split at hcontra
    all_goals try exact absurd hcontra (by decide)
    · next h8 =>
      rcases imageVendor_cases cfgInput with himg | himg <;> rw [himg] at h8 <;>
        exact absurd h8 (by decide)
    · have h500 := runPipeline_resp_500 (effectiveCfg cfgInput) (jsTrim rawTitle)
        (jsTrim rawConcept) env beh latency 400 "Anthropic은 이미지 생성/편집을 지원하지 않습니다." hcontra
      omega
  · intro p hp
    have hm : (mergeConfig (some p)).imageProvider = "anthropic" := by
      simp [mergeConfig, hp]
    have himg := fixText_image (mergeConfig (some p))
    unfold normalizeEngineConfig fixImageAnthropic
    rw [himg.1, if_pos hm]
    unfold fixImagePair
    rw [if_pos (by exact default_image_valid)]
    exact ⟨rfl, rfl⟩

/-- Witness for C2: at the counterexample's input the 400 guard response
is indeed never returned, and the anthropic image provider is replaced by
the default pair. -/
theorem c2_witness :
    (postModel "t" "" true (some anthImageInput) allKeys okBehavior 0).resp
        ≠ Response.err 400 "Anthropic은 이미지 생성/편집을 지원하지 않습니다." ∧
      (normalizeEngineConfig (some anthImageInput)).imageProvider = "openai" ∧
      (normalizeEngineConfig (some anthImageInput)).imageModel = "gpt-image-1-mini" := by
  refine ⟨?_, ?_, ?_⟩
  · exact c2_anthropic_image_guard_dead.1 "t" "" true (some anthImageInput) allKeys
      okBehavior 0
  · exact (c2_anthropic_image_guard_dead.2 anthImageInput rfl).1
  · exact (c2_anthropic_image_guard_dead.2 anthImageInput rfl).2
